import Mathlib

/-!
# Forum backend: signup, login and session tokens

A shallow embedding of `backend/signup.go`, `backend/login.go` and of the part of the
schema in `backend/init.go` that these two handlers touch (tables `users` and
`sessions` with their uniqueness constraints).

* Go strings are Lean strings (the valid UTF-8 ones); `len(s)` is the UTF-8 byte length.
* The database is an explicit `Store` value that the handlers transform.
* An instant is a number of nanoseconds since the epoch; a `DATETIME` column holds the text
  written to it, which Go renders on the local clock of the server and SQLite in UTC.
* Everything the handlers obtain from outside the repository (clock, random source,
  bcrypt, `path.Clean`, I/O failures of the database driver) is a field of `Env`.
* A handler is a function `Env → Request → Store → Response × Store`.
-/

namespace Forum

/-! ## Bytes and hexadecimal encoding (`signup.go`, lines 167-183) -/

/-- A Go `byte`. -/
abbrev Byte := Fin 256

/-- The constant `hexChars` of `hexEncode`. -/
def hexChars : List Char := "0123456789abcdef".toList

/-- The assignment `out[i] = c` on a slice: it panics (`none`) when `i` is out of range. -/
def writeAt (out : List Char) (i : Nat) (c : Char) : Option (List Char) :=
  if i < out.length then some (out.set i c) else none

/-- The loop `for i, v := range b` of `hexEncode`, started at index `i` on the bytes that
are left. Indexing `hexChars[...]` and writing `out[...]` are fallible, as in Go. -/
def hexLoop : Nat → List Byte → List Char → Option (List Char)
  | _, [], out => some out
  | i, v :: rest, out => do
      let hi ← hexChars[v.val >>> 4]?
      let out1 ← writeAt out (i * 2) hi
      let lo ← hexChars[v.val &&& 0x0f]?
      let out2 ← writeAt out1 (i * 2 + 1) lo
      hexLoop (i + 1) rest out2

/-- The function `hexEncode`: `none` stands for a run-time panic (index out of range). -/
def hexEncode (b : List Byte) : Option String :=
  (hexLoop 0 b (List.replicate (b.length * 2) (Char.ofNat 0))).map String.mk

/-- A buffer `make([]byte, 32)` after `rand.Read` filled it. -/
abbrev Buf32 := { l : List Byte // l.length = 32 }

/-- The function `generateRandomToken`. Its argument is the outcome of `rand.Read(b)` on the
32-byte buffer: `none` when the random source returns an error. The result is `none` only
if `hexEncode` panics. -/
def generateRandomToken (rand : Option Buf32) : Option String :=
  match rand with
  | none => some ""
  | some b => hexEncode b.val

/-- The two digits `hexEncode` writes for one byte. -/
def hexPair (v : Byte) : List Char :=
  [hexChars.getD (v.val / 16) '0', hexChars.getD (v.val % 16) '0']

/-- The text `hexEncode` is expected to produce: two digits for each byte, in order. -/
def hexDigits (b : List Byte) : List Char := b.flatMap hexPair

/-! ## Regular expressions (`signup.go`, lines 17-23) -/

/-- The fragment of RE2 syntax used by the two patterns of `SignupHandler`. -/
inductive Regex where
  /-- A character class `[...]`. -/
  | cls (p : Char → Bool)
  /-- A literal character. -/
  | lit (c : Char)
  /-- Concatenation. -/
  | cat (a b : Regex)
  /-- The group `(?:a)?`. -/
  | opt (a : Regex)
  /-- The bounded repetition `a{0,n}`. -/
  | upTo (n : Nat) (a : Regex)
  /-- The repetition `a+`. -/
  | plus (a : Regex)

/-- Residuals of `a{0,n}`: zero to `n` successive matches of `f`. -/
def iterUpTo (f : List Char → List (List Char)) : Nat → List Char → List (List Char)
  | 0, s => [s]
  | n + 1, s => s :: (f s).flatMap (iterUpTo f n)

/-- Residuals of `a+`: one or more successive matches of `f`, at most `fuel` of them. -/
def iterPlus (f : List Char → List (List Char)) : Nat → List Char → List (List Char)
  | 0, _ => []
  | fuel + 1, s => (f s).flatMap (fun t => t :: iterPlus f fuel t)

/-- All the ways the expression can match a prefix of the input: the list of what is left
of the input after each such match. -/
def Regex.run : Regex → List Char → List (List Char)
  | .cls _, [] => []
  | .cls p, c :: t => if p c then [t] else []
  | .lit _, [] => []
  | .lit c, d :: t => if c = d then [t] else []
  | .cat a b, s => (a.run s).flatMap b.run
  | .opt a, s => s :: a.run s
  | .upTo n a, s => iterUpTo a.run n s
  | .plus a, s => iterPlus a.run (s.length + 1) s

/-- The method `MatchString` for a pattern written `^...$`: the whole input is matched. -/
def Regex.MatchString (re : Regex) (s : String) : Bool :=
  (re.run s.toList).any List.isEmpty

/-- The words an expression denotes, in the usual sense of regular expressions. -/
def Regex.Matches : Regex → List Char → Prop
  | .cls p, w => ∃ c, w = [c] ∧ p c = true
  | .lit c, w => w = [c]
  | .cat a b, w => ∃ u v, w = u ++ v ∧ a.Matches u ∧ b.Matches v
  | .opt a, w => w = [] ∨ a.Matches w
  | .upTo n a, w => ∃ ws : List (List Char), ws.length ≤ n ∧ w = ws.flatten ∧
      ∀ x ∈ ws, a.Matches x
  | .plus a, w => ∃ ws : List (List Char), ws ≠ [] ∧ w = ws.flatten ∧ ∀ x ∈ ws, a.Matches x

/-- The class `[A-Za-z0-9]`. -/
def isAlnum (c : Char) : Bool :=
  (65 ≤ c.toNat && c.toNat ≤ 90) || (97 ≤ c.toNat && c.toNat ≤ 122) ||
    (48 ≤ c.toNat && c.toNat ≤ 57)

/-- The class `[A-Za-z0-9_-]` of the username pattern. -/
def isUsernameChar (c : Char) : Bool := isAlnum c || c == '_' || c == '-'

/-- The class `[A-Za-z0-9._%+\-]` of the local part of an email. -/
def isLocalChar (c : Char) : Bool :=
  isAlnum c || c == '.' || c == '_' || c == '%' || c == '+' || c == '-'

/-- The class `[A-Za-z0-9\-]` of a domain label. -/
def isLabelChar (c : Char) : Bool := isAlnum c || c == '-'

/-- The pattern `^[A-Za-z0-9_-]+$`. -/
def usernameRe : Regex := .plus (.cls isUsernameChar)

/-- The sub-pattern `[A-Za-z0-9](?:[A-Za-z0-9\-]{0,61}[A-Za-z0-9])?` of a domain label. -/
def labelRe : Regex :=
  .cat (.cls isAlnum) (.opt (.cat (.upTo 61 (.cls isLabelChar)) (.cls isAlnum)))

/-- The email pattern of `SignupHandler`: a local part
`[A-Za-z0-9](?:[A-Za-z0-9._%+\-]{0,63}[A-Za-z0-9])?`, then `@`, then a label, then
`(?:\.label)+`. -/
def emailRe : Regex :=
  .cat (.cls isAlnum) <|
  .cat (.opt (.cat (.upTo 63 (.cls isLocalChar)) (.cls isAlnum))) <|
  .cat (.lit '@') <|
  .cat labelRe <|
  .plus (.cat (.lit '.') labelRe)

/-! ## The persistent store (`init.go`, lines 29-44 and 104-109) -/

/-- A row of table `users`. -/
structure User where
  id : Nat
  username : String
  email : String
  password_hash : String
  created_at : String
deriving DecidableEq

/-- A row of table `sessions`. -/
structure Session where
  id : Nat
  token : String
  user_id : Nat
  expires_at : String
deriving DecidableEq

/-- The two tables the handlers use, with the `sqlite_sequence` counter that
`AUTOINCREMENT` keeps for each. -/
structure Store where
  users : List User
  sessions : List Session
  userSeq : Nat
  sessionSeq : Nat
deriving DecidableEq

/-- Errors of a database call. -/
inductive DBError where
  /-- A `UNIQUE` constraint is violated. -/
  | constraint
  /-- No row id is left (`SQLITE_FULL`). -/
  | full
  /-- The driver reports a failure of its own: lock timeout, disk, closed handle. -/
  | io
deriving DecidableEq

/-- The largest row id of an `INTEGER PRIMARY KEY`. -/
def maxRowid : Nat := 9223372036854775807

/-- The id `AUTOINCREMENT` gives to a new row: one more than the largest id the table ever
held, or no id at all once the largest possible one has been used. -/
def nextRowid (seq : Nat) (ids : List Nat) : Option Nat :=
  let top := ids.foldl max seq
  if top < maxRowid then some (top + 1) else none

/-- The statement `DELETE FROM sessions WHERE user_id = ?`. -/
def Store.deleteSessions (db : Store) (userID : Nat) : Store :=
  { db with sessions := db.sessions.filter (fun r => r.user_id ≠ userID) }

/-- The statement `INSERT INTO sessions(token, user_id, expires_at) VALUES (?, ?, ?)` under
`token TEXT NOT NULL UNIQUE` and the unique index `idx_sessions_user` on `user_id`. The
foreign key on `user_id` plays no part: both handlers insert the id of a row of `users`
they have just read or written. -/
def Store.insertSession (db : Store) (token : String) (userID : Nat) (expires : String) :
    Except DBError Store :=
  if db.sessions.any (fun r => r.token = token) then .error .constraint
  else if db.sessions.any (fun r => r.user_id = userID) then .error .constraint
  else match nextRowid db.sessionSeq (db.sessions.map (fun r => r.id)) with
    | none => .error .full
    | some id =>
        .ok { db with sessions := db.sessions ++ [⟨id, token, userID, expires⟩],
                      sessionSeq := id }

/-- The statement `INSERT INTO users (username, email, password_hash, created_at) VALUES
(?, ?, ?, datetime('now'))` under `username TEXT NOT NULL UNIQUE` and `email TEXT NOT NULL
UNIQUE`. It returns the new store and the id of the new row. -/
def Store.insertUser (db : Store) (username email hash created : String) :
    Except DBError (Store × Nat) :=
  if db.users.any (fun u => u.username = username) then .error .constraint
  else if db.users.any (fun u => u.email = email) then .error .constraint
  else match nextRowid db.userSeq (db.users.map (fun u => u.id)) with
    | none => .error .full
    | some id =>
        .ok ({ db with users := db.users ++ [⟨id, username, email, hash, created⟩],
                       userSeq := id }, id)

/-- The query `SELECT id, password_hash FROM users WHERE email = ? OR username = ?` read
with `QueryRow(...).Scan`: the first matching row, `none` for `sql.ErrNoRows`. -/
def Store.selectUser (db : Store) (ident : String) : Option User :=
  db.users.find? (fun u => u.email = ident || u.username = ident)

/-- The query `SELECT COUNT(1) FROM users WHERE email = ?`. -/
def Store.countEmail (db : Store) (email : String) : Nat :=
  db.users.countP (fun u => u.email = email)

/-- The query `SELECT COUNT(1) FROM users WHERE username = ?`. -/
def Store.countUsername (db : Store) (username : String) : Nat :=
  db.users.countP (fun u => u.username = username)

/-! ## Requests, responses and the environment -/

/-- The database calls of the two handlers, in the order they are made. -/
inductive DBCall where
  | loginSelect | loginDelete | loginInsert
  | emailCheck | usernameCheck | begin | insertUser | lastInsertId | insertSession | commit
deriving DecidableEq

/-- What a handler obtains from outside the repository. -/
structure Env where
  /-- The instant `time.Now()` returns, in nanoseconds since the epoch. -/
  now : Nat
  /-- The offset east of UTC, in seconds, of the local zone of the server at an instant. -/
  zoneOffset : Nat → Int
  /-- The instant SQLite reads from its own clock for `datetime('now')`, in nanoseconds
  since the epoch. -/
  sqlNow : Nat
  /-- The outcome of `rand.Read` on a 32-byte buffer. -/
  rand : Option Buf32
  /-- The test `bcrypt.CompareHashAndPassword(hash, password) == nil`. -/
  bcryptCompare : String → String → Bool
  /-- The call `bcrypt.GenerateFromPassword(password, bcrypt.DefaultCost)`. -/
  bcryptGenerate : String → Option String
  /-- The function `path.Clean`. -/
  pathClean : String → String
  /-- Whether `templates.ExecuteTemplate` returns an error. -/
  templateFails : Bool
  /-- Which database calls fail in the driver, whatever the data. -/
  fails : DBCall → Bool

/-- The part of `*http.Request` the handlers read. Field `form` is `none` when
`r.ParseForm()` returns an error. -/
structure Request where
  path : String
  method : String
  form : Option (List (String × String))

/-- The method `r.FormValue(key)`: the first value of the key, or the empty string. -/
def formValue (form : List (String × String)) (key : String) : String :=
  match form.find? (fun kv => kv.1 = key) with
  | some kv => kv.2
  | none => ""

/-- The values of `http.SameSite`. -/
inductive SameSite where
  | default | lax | strict | none
deriving DecidableEq

/-- The fields of `http.Cookie` that the handlers set. -/
structure Cookie where
  name : String
  value : String
  expires : Nat
  path : String
  httpOnly : Bool
  sameSite : SameSite
deriving DecidableEq

/-- What a handler writes to its `http.ResponseWriter`. -/
inductive Response where
  /-- The call `Render(w, status)`. -/
  | render (status : Nat)
  /-- An optional `w.WriteHeader(status)`, then
  `templates.ExecuteTemplate(w, name, map[string]string{"Error": error})`. -/
  | template (header : Option Nat) (name : String) (error : String)
  /-- The call `http.SetCookie(w, cookie)`, then `http.Redirect(w, r, location, status)`. -/
  | redirect (cookie : Cookie) (location : String) (status : Nat)
  /-- The handler panicked. -/
  | aborted
deriving DecidableEq

/-- The status line of a response: the status given to `WriteHeader` or to
`http.Redirect`; 200, which `net/http` sends when the handler writes a body without calling
`WriteHeader`; for `Render(w, status)`, whose body is not in these sources, the status it
is called with; an aborted handler sends no status. -/
def Response.statusCode : Response → Option Nat
  | .render status => some status
  | .template (some status) _ _ => some status
  | .template none _ _ => some 200
  | .redirect _ _ status => some status
  | .aborted => none

/-- The cookie a response sets, if any. -/
def Response.cookie : Response → Option Cookie
  | .redirect c _ _ => some c
  | _ => none

def StatusNonAuthoritativeInfo : Nat := 203
def StatusSeeOther : Nat := 303
def StatusBadRequest : Nat := 400
def StatusMethodNotAllowed : Nat := 405
def StatusInternalServerError : Nat := 500

/-- The duration `24 * time.Hour`, in nanoseconds. -/
def day : Nat := 24 * 3600 * 1000000000

/-- The helper `appendInt` of package `time`: the decimal digits of `x`, padded with zeros on
the left to `width` digits, after a minus sign when `x` is negative. -/
def appendInt (x : Int) (width : Nat) : List Char :=
  let digits := Nat.toDigits 10 x.natAbs
  (if x < 0 then ['-'] else []) ++ List.replicate (width - digits.length) '0' ++ digits

/-- The civil date (year, month, day) of a day counted from 1970-01-01, in the proleptic
Gregorian calendar. Division and remainder round down. -/
def civilFromDays (days : Int) : Int × Int × Int :=
  let z := days + 719468
  let era := z / 146097
  let doe := z % 146097
  let yoe := (doe - doe / 1460 + doe / 36524 - doe / 146096) / 365
  let doy := doe - (365 * yoe + yoe / 4 - yoe / 100)
  let mp := (5 * doy + 2) / 153
  let d := doy - (153 * mp + 2) / 5 + 1
  let m := if mp < 10 then mp + 3 else mp - 9
  let y := yoe + era * 400 + (if m ≤ 2 then 1 else 0)
  (y, m, d)

/-- The text `t.Format("2006-01-02 15:04:05")` of the instant `t` (nanoseconds since the
epoch) in a zone `offset` seconds east of UTC: the date and the time of day on the clock of
that zone, to the second, with no fraction and no mark of the zone. -/
def timeFormat (offset : Int) (t : Nat) : String :=
  let secs : Int := (t / 1000000000 : Nat) + offset
  let (y, m, d) := civilFromDays (secs / 86400)
  let rem := secs % 86400
  String.mk (appendInt y 4 ++ ['-'] ++ appendInt m 2 ++ ['-'] ++ appendInt d 2 ++ [' '] ++
    appendInt (rem / 3600) 2 ++ [':'] ++ appendInt (rem % 3600 / 60) 2 ++ [':'] ++
    appendInt (rem % 60) 2)

/-- The text SQLite writes for an instant, as in `datetime('now')`: the same layout, always
in UTC (years 0 to 9999). -/
def sqlDatetime (t : Nat) : String := timeFormat 0 t

/-- The call `exp.Format("2006-01-02 15:04:05")` on a time derived from `time.Now()`: such
a time is in the local zone of the server, so the text is the date and time on the server's
local clock. -/
def Env.format (env : Env) (t : Nat) : String := timeFormat (env.zoneOffset t) t

/-- The function `strings.Contains`. -/
def stringsContains (s sub : String) : Bool :=
  s.toList.tails.any (fun t => sub.toList.isPrefixOf t)

/-- The URL validation both handlers start with: `true` when the path is refused. -/
def suspiciousPath (p : String) : Bool :=
  decide (p.utf8ByteSize > 2048) || stringsContains p "\x00" || stringsContains p ".."

/-- The cookie both handlers set. -/
def sessionCookie (token : String) (exp : Nat) : Cookie :=
  { name := "session_token", value := token, expires := exp, path := "/",
    httpOnly := true, sameSite := .lax }

/-! ## The handlers -/

/-- A database call: the driver may fail it, otherwise the statement runs. -/
def dbExec {α : Type} (env : Env) (call : DBCall) (stmt : Except DBError α) :
    Except DBError α :=
  if env.fails call then .error .io else stmt

/-- The last part of `LoginHandler` (`login.go`, lines 72-113, "Create Session"), reached
with the id of the user whose password verified. -/
def loginCreateSession (env : Env) (db : Store) (userID : Nat) : Response × Store :=
  match generateRandomToken env.rand with
  | none => (.aborted, db)
  | some token =>
  if token = "" then (.render StatusInternalServerError, db)
  else
  let exp := env.now + day
  match dbExec env .loginDelete (.ok (db.deleteSessions userID)) with
  | .error _ => (.render StatusInternalServerError, db)
  | .ok db1 =>
  match dbExec env .loginInsert (db1.insertSession token userID (env.format exp)) with
  | .error _ => (.render StatusInternalServerError, db1)
  | .ok db2 => (.redirect (sessionCookie token exp) "/post" StatusSeeOther, db2)

/-- The middle part of `LoginHandler` (`login.go`, lines 49-70), reached with the two form
values: the check of the credentials. -/
def loginCheck (env : Env) (db : Store) (email password : String) : Response × Store :=
  if email = "" ∨ password = "" then
    (.template none "login.html" "Email and password required", db)
  else
  match dbExec env .loginSelect (.ok (db.selectUser email)) with
  | .ok none => (.template none "login.html" "Invalid email or password", db)
  | .error _ => (.render StatusInternalServerError, db)
  | .ok (some user) =>
  if ¬ env.bcryptCompare user.password_hash password then
    (.template none "login.html" "Invalid email or password", db)
  else loginCreateSession env db user.id

/-- The closure returned by `LoginHandler(DB)` (`login.go`, lines 15-114): the validation
of the URL and of the method, the GET branch, then the POST branch in `loginCheck` and
`loginCreateSession`. -/
def LoginHandler (env : Env) (r : Request) (db : Store) : Response × Store :=
  -- URL validation
  if suspiciousPath r.path then (.render StatusBadRequest, db)
  else if r.path ≠ env.pathClean r.path then (.render StatusBadRequest, db)
  -- method validation
  else if r.method ≠ "GET" ∧ r.method ≠ "POST" then (.render StatusMethodNotAllowed, db)
  else if r.method = "GET" then
    if env.templateFails then (.render StatusInternalServerError, db)
    else (.template none "login.html" "", db)
  else
  match r.form with
  | none => (.render StatusBadRequest, db)
  | some form => loginCheck env db (formValue form "email") (formValue form "password")

/-- The last part of `SignupHandler` (`signup.go`, lines 111-163): the transaction. Its
statements run on the transaction; on every return before `tx.Commit()` succeeds the
deferred `tx.Rollback()` gives back the store of before the request. -/
def signupTx (env : Env) (db : Store) (username email hash : String) : Response × Store :=
  match dbExec env .begin (.ok db) with
  | .error _ => (.render StatusInternalServerError, db)
  | .ok tx =>
  match dbExec env .insertUser
      (tx.insertUser username email hash (sqlDatetime env.sqlNow)) with
  | .error _ => (.render StatusInternalServerError, db)
  | .ok (tx1, res) =>
  match dbExec env .lastInsertId (.ok res) with
  | .error _ => (.render StatusInternalServerError, db)
  | .ok userID =>
  match generateRandomToken env.rand with
  | none => (.aborted, db)
  | some token =>
  if token = "" then (.render StatusInternalServerError, db)
  else
  let exp := env.now + day
  match dbExec env .insertSession
      (tx1.insertSession token userID (env.format exp)) with
  | .error _ => (.render StatusInternalServerError, db)
  | .ok tx2 =>
  match dbExec env .commit (.ok tx2) with
  | .error _ => (.render StatusInternalServerError, db)
  | .ok committed => (.redirect (sessionCookie token exp) "/" StatusSeeOther, committed)

/-- The middle part of `SignupHandler` (`signup.go`, lines 61-109), reached with the three
form values: the validation of the fields, the two duplicate checks and the hashing. -/
def signupCheck (env : Env) (db : Store) (username email password : String) :
    Response × Store :=
  if username = "" ∨ email = "" ∨ password = "" then
    (.template none "signup.html" "All fields are required", db)
  else if ¬ emailRe.MatchString email then
    (.template (some StatusNonAuthoritativeInfo) "signup.html" "Invalid email", db)
  else if ¬ usernameRe.MatchString username then
    (.template (some StatusNonAuthoritativeInfo) "signup.html" "Invalid username", db)
  else if password.utf8ByteSize < 8 then
    (.template (some StatusNonAuthoritativeInfo) "signup.html" "Password must be >= 8 chars", db)
  else
  match dbExec env .emailCheck (.ok (db.countEmail email)) with
  | .error _ => (.render StatusInternalServerError, db)
  | .ok exists_ =>
  if exists_ > 0 then
    (.template (some StatusNonAuthoritativeInfo) "signup.html" "Email already taken", db)
  else
  match dbExec env .usernameCheck (.ok (db.countUsername username)) with
  | .error _ => (.render StatusInternalServerError, db)
  | .ok usernameExists =>
  if usernameExists > 0 then
    (.template (some StatusNonAuthoritativeInfo) "signup.html" "Username already taken", db)
  else
  match env.bcryptGenerate password with
  | none => (.render StatusInternalServerError, db)
  | some hash => signupTx env db username email hash

/-- The closure returned by `SignupHandler(DB)` (`signup.go`, lines 25-164): the validation
of the URL and of the method, the GET branch, then the POST branch in `signupCheck` and
`signupTx`. -/
def SignupHandler (env : Env) (r : Request) (db : Store) : Response × Store :=
  if suspiciousPath r.path then (.render StatusBadRequest, db)
  else if r.path ≠ env.pathClean r.path then (.render StatusBadRequest, db)
  -- method validation
  else if r.method ≠ "GET" ∧ r.method ≠ "POST" then (.render StatusMethodNotAllowed, db)
  else if r.method = "GET" then
    if env.templateFails then (.render StatusInternalServerError, db)
    else (.template none "signup.html" "", db)
  else
  match r.form with
  | none => (.render StatusBadRequest, db)
  | some form =>
      signupCheck env db (formValue form "username") (formValue form "email")
        (formValue form "password")

/-- A request that reaches the POST branch of a handler: the URL and the method pass the
validation and the form parses. -/
def Request.isPost (env : Env) (r : Request) (form : List (String × String)) : Prop :=
  suspiciousPath r.path = false ∧ r.path = env.pathClean r.path ∧ r.method = "POST" ∧
    r.form = some form

instance (env : Env) (r : Request) (form : List (String × String)) :
    Decidable (r.isPost env form) := by
  unfold Request.isPost
  exact inferInstance

/-- The number of rows of table `sessions` that belong to a user. -/
def sessionCount (sessions : List Session) (userID : Nat) : Nat :=
  sessions.countP (fun r => r.user_id = userID)

/-- The store before the first request. -/
def emptyStore : Store := ⟨[], [], 0, 0⟩

/-- The stores the two handlers can produce, starting from the empty one. -/
inductive Reachable : Store → Prop where
  | empty : Reachable emptyStore
  | signup (env : Env) (r : Request) (db : Store) :
      Reachable db → Reachable (SignupHandler env r db).2
  | login (env : Env) (r : Request) (db : Store) :
      Reachable db → Reachable (LoginHandler env r db).2

/-- What the schema and the checks of `SignupHandler` guarantee of table `users`: every
username and every email has the required form, and no two rows share a username or an
email. -/
structure UsersValid (users : List User) : Prop where
  username_ok : ∀ u ∈ users, usernameRe.MatchString u.username = true
  email_ok : ∀ u ∈ users, emailRe.MatchString u.email = true
  username_unique : (users.map (fun u => u.username)).Nodup
  email_unique : (users.map (fun u => u.email)).Nodup

/-! ## Example inputs -/

/-- An environment for the examples: both clocks read 1700000000 s, which is
2023-11-14 22:13:20 UTC, the server's zone is UTC, the random source returns 32 bytes
`0x07`, the driver never fails, `path.Clean` leaves `/signup` and `/login` as they are, and
a hash is the password behind a fixed tag. -/
def exampleEnv : Env :=
  { now := 1700000000000000000
    zoneOffset := fun _ => 0
    sqlNow := 1700000000000000000
    rand := some ⟨List.replicate 32 7, rfl⟩
    bcryptCompare := fun hash password => hash == "bcrypt:" ++ password
    bcryptGenerate := fun password => some ("bcrypt:" ++ password)
    pathClean := fun p => p
    templateFails := false
    fails := fun _ => false }

/-- The same environment on a server whose local zone is nine hours east of UTC
(`Asia/Tokyo`). -/
def tokyoEnv : Env := { exampleEnv with zoneOffset := fun _ => 32400 }

/-- The signup of the scenario: alice / a@x.com / longenough1. -/
def signupAlice : Request :=
  ⟨"/signup", "POST",
    some [("username", "alice"), ("email", "a@x.com"), ("password", "longenough1")]⟩

/-- A login of alice with her password. -/
def loginAlice : Request :=
  ⟨"/login", "POST", some [("email", "a@x.com"), ("password", "longenough1")]⟩

/-- The token `hexEncode` gives for 32 bytes `0x07`. -/
def token07 : String := "0707070707070707070707070707070707070707070707070707070707070707"

/-- The token `hexEncode` gives for 32 bytes `0x08`. -/
def token08 : String := "0808080808080808080808080808080808080808080808080808080808080808"

/-- The store after alice signed up at 2023-11-14 22:13:20 UTC on a server in UTC, with
token `token08`. -/
def storeAlice : Store :=
  { users := [⟨1, "alice", "a@x.com", "bcrypt:longenough1", "2023-11-14 22:13:20"⟩]
    sessions := [⟨1, token08, 1, "2023-11-15 22:13:20"⟩]
    userSeq := 1
    sessionSeq := 1 }

/-- A store with two users, alice and bob, each with a session; the token of bob is
`token07`. -/
def storeAliceBob : Store :=
  { users := [⟨1, "alice", "a@x.com", "bcrypt:longenough1", "2023-11-14 22:13:20"⟩,
              ⟨2, "bob", "b@x.com", "bcrypt:evenlonger22", "2023-11-14 22:13:20"⟩]
    sessions := [⟨1, token08, 1, "2023-11-15 22:13:20"⟩, ⟨2, token07, 2, "2023-11-15 22:13:20"⟩]
    userSeq := 2
    sessionSeq := 2 }

/-! # Theorems -/

/-! ## Hexadecimal encoding -/

set_option maxRecDepth 100000 in
theorem hexChars_hi (v : Byte) :
    hexChars[v.val >>> 4]? = some (hexChars.getD (v.val / 16) '0') := by
  revert v; decide

set_option maxRecDepth 100000 in
theorem hexChars_lo (v : Byte) :
    hexChars[v.val &&& 0x0f]? = some (hexChars.getD (v.val % 16) '0') := by
  revert v; decide

theorem writeAt_append (pre tl : List Char) (z c : Char) (i : Nat) (h : i = pre.length) :
    writeAt (pre ++ z :: tl) i c = some (pre ++ c :: tl) := by
  subst h
  simp [writeAt, List.set_append_right]

theorem hexLoop_spec (rest : List Byte) (i : Nat) (pre : List Char) (z : Char)
    (h : pre.length = i * 2) :
    hexLoop i rest (pre ++ List.replicate (rest.length * 2) z) = some (pre ++ hexDigits rest) := by
  induction rest generalizing i pre with
  | nil => simp [hexLoop, hexDigits]
  | cons v r ih =>
    have e : List.replicate ((v :: r).length * 2) z
        = z :: z :: List.replicate (r.length * 2) z := by
      simp [List.length_cons, Nat.add_mul, List.replicate_succ]
    rw [e]
    simp only [hexLoop, hexChars_hi, hexChars_lo, Option.bind_eq_bind, Option.some_bind]
    rw [writeAt_append pre _ z _ (i * 2) h.symm]
    have e2 : pre ++ hexChars.getD (v.val / 16) '0' :: z :: List.replicate (r.length * 2) z
        = (pre ++ [hexChars.getD (v.val / 16) '0']) ++ z :: List.replicate (r.length * 2) z := by
      simp
    simp only [Option.some_bind]
    rw [e2, writeAt_append _ _ z _ (i * 2 + 1) (by simp [h])]
    simp only [Option.some_bind]
    have e3 : (pre ++ [hexChars.getD (v.val / 16) '0']) ++
        hexChars.getD (v.val % 16) '0' :: List.replicate (r.length * 2) z
        = (pre ++ hexPair v) ++ List.replicate (r.length * 2) z := by
      simp [hexPair]
    rw [e3, ih (i + 1) (pre ++ hexPair v) (by simp [hexPair, h]; omega)]
    simp [hexDigits]

theorem hexEncode_eq (b : List Byte) : hexEncode b = some (String.mk (hexDigits b)) := by
  have := hexLoop_spec b 0 [] (Char.ofNat 0) rfl
  simp only [List.nil_append] at this
  simp [hexEncode, this]

theorem hexDigits_length (b : List Byte) : (hexDigits b).length = 2 * b.length := by
  induction b with
  | nil => rfl
  | cons v r ih => simp [hexDigits, hexPair] at ih ⊢; omega

theorem hexDigits_get (b : List Byte) (i : Nat) (h : i < b.length) :
    (hexDigits b)[2 * i]? = hexChars[(b.get ⟨i, h⟩).val / 16]? ∧
    (hexDigits b)[2 * i + 1]? = hexChars[(b.get ⟨i, h⟩).val % 16]? := by
  induction b generalizing i with
  | nil => simp at h
  | cons v r ih =>
    cases i with
    | zero =>
      have h1 : v.val / 16 < hexChars.length := by have := v.isLt; simp [hexChars]; omega
      have h2 : v.val % 16 < hexChars.length := by simp [hexChars]; omega
      simp [hexDigits, hexPair, List.getD_eq_getElem?_getD, List.getElem?_eq_getElem h1, List.getElem?_eq_getElem h2]
    | succ j =>
      have hj : j < r.length := by simpa using h
      have := ih j hj
      have e : hexDigits (v :: r) = hexChars.getD (v.val / 16) '0' :: hexChars.getD (v.val % 16) '0' :: hexDigits r := by
        simp [hexDigits, hexPair]
      rw [e]
      have e1 : 2 * (j + 1) = (2 * j) + 1 + 1 := by omega
      have e2 : 2 * (j + 1) + 1 = (2 * j + 1) + 1 + 1 := by omega
      rw [e2, e1]
      simpa using this

theorem hexDigits_mem (b : List Byte) : ∀ c ∈ hexDigits b, c ∈ hexChars := by
  intro c hc
  simp only [hexDigits, List.mem_flatMap] at hc
  obtain ⟨v, -, hv⟩ := hc
  have key : ∀ n : Fin 16, hexChars.getD n.val '0' ∈ hexChars := by decide
  simp only [hexPair, List.mem_cons, List.mem_singleton, List.not_mem_nil, or_false] at hv
  rcases hv with rfl | rfl
  · exact key ⟨v.val / 16, by omega⟩
  · exact key ⟨v.val % 16, by omega⟩

theorem hexDigit_inj : ∀ a b : Fin 16, hexChars.getD a.val '0' = hexChars.getD b.val '0' → a = b := by
  decide

theorem hexPair_inj (v w : Byte) (h : hexPair v = hexPair w) : v = w := by
  simp only [hexPair, List.cons.injEq, and_true] at h
  have h1 := hexDigit_inj ⟨v.val / 16, by omega⟩ ⟨w.val / 16, by omega⟩ h.1
  have h2 := hexDigit_inj ⟨v.val % 16, by omega⟩ ⟨w.val % 16, by omega⟩ h.2
  simp only [Fin.mk.injEq] at h1 h2
  apply Fin.ext
  omega

theorem hexDigits_inj (a b : List Byte) (hl : a.length = b.length)
    (h : hexDigits a = hexDigits b) : a = b := by
  induction a generalizing b with
  | nil => cases b with
    | nil => rfl
    | cons _ _ => simp at hl
  | cons v r ih =>
    cases b with
    | nil => simp at hl
    | cons w q =>
      have e1 : hexDigits (v :: r) = hexPair v ++ hexDigits r := by simp [hexDigits]
      have e2 : hexDigits (w :: q) = hexPair w ++ hexDigits q := by simp [hexDigits]
      rw [e1, e2] at h
      have hlen : (hexPair v).length = (hexPair w).length := by simp [hexPair]
      obtain ⟨hp, hr⟩ := List.append_inj h hlen
      rw [hexPair_inj v w hp, ih q (by simpa using hl) hr]

/-- C9: `hexEncode` never indexes out of range and returns, for every byte sequence, a
string of exactly twice as many characters, where characters `2i` and `2i+1` are the
digits from `0123456789abcdef` of the high and the low nibble of byte `i`. Hence
`generateRandomToken` returns the empty string when the random source fails and otherwise
a string of exactly 64 characters in `0-9a-f`, and distinct 32-byte inputs give distinct
tokens. -/
theorem hexEncode_token_format :
    (∀ b : List Byte, ∃ out : String, hexEncode b = some out ∧
        out.length = 2 * b.length ∧
        ∀ (i : Nat) (h : i < b.length),
          (b.get ⟨i, h⟩).val >>> 4 = (b.get ⟨i, h⟩).val / 16 ∧
          (b.get ⟨i, h⟩).val &&& 0x0f = (b.get ⟨i, h⟩).val % 16 ∧
          (b.get ⟨i, h⟩).val >>> 4 < "0123456789abcdef".length ∧
          (b.get ⟨i, h⟩).val &&& 0x0f < "0123456789abcdef".length ∧
          ∃ hi lo : Char,
            "0123456789abcdef".toList[(b.get ⟨i, h⟩).val >>> 4]? = some hi ∧
            "0123456789abcdef".toList[(b.get ⟨i, h⟩).val &&& 0x0f]? = some lo ∧
            out.toList[2 * i]? = some hi ∧ out.toList[2 * i + 1]? = some lo) ∧
    generateRandomToken none = some "" ∧
    (∀ b : Buf32, ∃ t : String, generateRandomToken (some b) = some t ∧
        t.length = 64 ∧ ∀ c ∈ t.toList, c ∈ "0123456789abcdef".toList) ∧
    (∀ b1 b2 : Buf32, b1 ≠ b2 →
        generateRandomToken (some b1) ≠ generateRandomToken (some b2)) := by
  refine ⟨?_, rfl, ?_, ?_⟩
  · intro b
    refine ⟨String.mk (hexDigits b), hexEncode_eq b, ?_, ?_⟩
    · simp [String.length, hexDigits_length]
    · intro i h
      have hv := (b.get ⟨i, h⟩).isLt
      have e1 : (b.get ⟨i, h⟩).val >>> 4 = (b.get ⟨i, h⟩).val / 16 :=
        Nat.shiftRight_eq_div_pow _ 4
      have e2 : (b.get ⟨i, h⟩).val &&& 0x0f = (b.get ⟨i, h⟩).val % 16 :=
        Nat.and_pow_two_sub_one_eq_mod _ 4
      have hlen : "0123456789abcdef".length = 16 := by decide
      refine ⟨e1, e2, by rw [e1, hlen]; omega, by rw [e2, hlen]; omega,
        hexChars.getD ((b.get ⟨i, h⟩).val / 16) '0',
        hexChars.getD ((b.get ⟨i, h⟩).val % 16) '0', ?_, ?_, ?_, ?_⟩
      · exact hexChars_hi _
      · exact hexChars_lo _
      · exact (hexDigits_get b i h).1.trans (e1 ▸ hexChars_hi _)
      · exact (hexDigits_get b i h).2.trans (e2 ▸ hexChars_lo _)
  · intro b
    refine ⟨String.mk (hexDigits b.val), hexEncode_eq b.val, ?_, ?_⟩
    · simp [String.length, hexDigits_length, b.property]
    · exact hexDigits_mem b.val
  · intro b1 b2 hne heq
    apply hne
    simp only [generateRandomToken, hexEncode_eq, Option.some.injEq] at heq
    exact Subtype.ext (hexDigits_inj b1.val b2.val (by rw [b1.property, b2.property])
      (congrArg String.data heq))

/-- Witness for C9 at the all-zero and the all-one buffer. -/
theorem hexEncode_token_format_witness :
    generateRandomToken (some ⟨List.replicate 32 0, rfl⟩) ≠
      generateRandomToken (some ⟨List.replicate 32 1, rfl⟩) :=
  hexEncode_token_format.2.2.2 ⟨List.replicate 32 0, rfl⟩ ⟨List.replicate 32 1, rfl⟩
    (by decide)

theorem dbExec_ok {α : Type} {env : Env} {call : DBCall} {stmt : Except DBError α} {x : α}
    (h : dbExec env call stmt = .ok x) : env.fails call = false ∧ stmt = .ok x := by
  unfold dbExec at h
  split at h
  · cases h
  · exact ⟨by simpa using ‹¬ env.fails call = true›, h⟩

theorem dbExec_run {α : Type} {env : Env} {call : DBCall} (stmt : Except DBError α)
    (h : env.fails call = false) : dbExec env call stmt = stmt := by
  simp [dbExec, h]

theorem insertSession_ok {db db2 : Store} {token expires : String} {userID : Nat}
    (h : db.insertSession token userID expires = .ok db2) :
    ∃ id, db2 = { db with sessions := db.sessions ++ [⟨id, token, userID, expires⟩],
                          sessionSeq := id } ∧
      (∀ r ∈ db.sessions, r.token ≠ token) ∧ (∀ r ∈ db.sessions, r.user_id ≠ userID) := by
  unfold Store.insertSession at h
  split at h
  · cases h
  · split at h
    · cases h
    · split at h
      · cases h
      · rename_i id _
        refine ⟨id, ?_, ?_, ?_⟩
        · cases h; rfl
        · simp_all
        · simp_all

theorem insertUser_ok {db db1 : Store} {username email hash created : String} {res : Nat}
    (h : db.insertUser username email hash created = .ok (db1, res)) :
    db1 = { db with users := db.users ++ [⟨res, username, email, hash, created⟩],
                    userSeq := res } ∧
      (∀ u ∈ db.users, u.username ≠ username) ∧ (∀ u ∈ db.users, u.email ≠ email) := by
  unfold Store.insertUser at h
  split at h
  · cases h
  · split at h
    · cases h
    · split at h
      · cases h
      · refine ⟨?_, ?_, ?_⟩
        · cases h; rfl
        · simp_all
        · simp_all

/-! ## The shape of the handlers -/

theorem LoginHandler_post {env : Env} {r : Request} {form : List (String × String)}
    (h : r.isPost env form) (db : Store) :
    LoginHandler env r db =
      loginCheck env db (formValue form "email") (formValue form "password") := by
  obtain ⟨h1, h2, h3, h4⟩ := h
  unfold LoginHandler
  rw [if_neg (by simp [h1]), if_neg (by simpa using h2), if_neg (by simp [h3]),
    if_neg (by simp [h3]), h4]

theorem SignupHandler_post {env : Env} {r : Request} {form : List (String × String)}
    (h : r.isPost env form) (db : Store) :
    SignupHandler env r db =
      signupCheck env db (formValue form "username") (formValue form "email")
        (formValue form "password") := by
  obtain ⟨h1, h2, h3, h4⟩ := h
  unfold SignupHandler
  rw [if_neg (by simp [h1]), if_neg (by simpa using h2), if_neg (by simp [h3]),
    if_neg (by simp [h3]), h4]

/-- Outside its POST branch `LoginHandler` touches neither the store nor the cookie. -/
theorem LoginHandler_cases (env : Env) (r : Request) (db : Store) :
    ((LoginHandler env r db).2 = db ∧ (LoginHandler env r db).1.cookie = none) ∨
    ∃ form, LoginHandler env r db =
      loginCheck env db (formValue form "email") (formValue form "password") := by
  generalize hout : LoginHandler env r db = out
  unfold LoginHandler at hout
  split at hout; · subst hout; exact .inl ⟨rfl, rfl⟩
  split at hout; · subst hout; exact .inl ⟨rfl, rfl⟩
  split at hout; · subst hout; exact .inl ⟨rfl, rfl⟩
  split at hout; · split at hout <;> (subst hout; exact .inl ⟨rfl, rfl⟩)
  split at hout; · subst hout; exact .inl ⟨rfl, rfl⟩
  exact .inr ⟨_, hout.symm⟩

/-- Outside its POST branch `SignupHandler` touches neither the store nor the cookie. -/
theorem SignupHandler_cases (env : Env) (r : Request) (db : Store) :
    ((SignupHandler env r db).2 = db ∧ (SignupHandler env r db).1.cookie = none) ∨
    ∃ form, SignupHandler env r db =
      signupCheck env db (formValue form "username") (formValue form "email")
        (formValue form "password") := by
  generalize hout : SignupHandler env r db = out
  unfold SignupHandler at hout
  split at hout; · subst hout; exact .inl ⟨rfl, rfl⟩
  split at hout; · subst hout; exact .inl ⟨rfl, rfl⟩
  split at hout; · subst hout; exact .inl ⟨rfl, rfl⟩
  split at hout; · split at hout <;> (subst hout; exact .inl ⟨rfl, rfl⟩)
  split at hout; · subst hout; exact .inl ⟨rfl, rfl⟩
  exact .inr ⟨_, hout.symm⟩

/-- The three ways `loginCreateSession` can end. -/
theorem loginCreateSession_cases (env : Env) (db : Store) (userID : Nat) :
    ((loginCreateSession env db userID).2 = db ∧
      (loginCreateSession env db userID).1.cookie = none) ∨
    (env.fails .loginInsert = true ∨
        (∃ token e, (db.deleteSessions userID).insertSession token userID (env.format (env.now + day))
          = .error e)) ∧
      loginCreateSession env db userID =
        (.render StatusInternalServerError, db.deleteSessions userID) ∨
    (∃ token db2, generateRandomToken env.rand = some token ∧ token ≠ "" ∧
      (db.deleteSessions userID).insertSession token userID (env.format (env.now + day))
        = .ok db2 ∧
      loginCreateSession env db userID =
        (.redirect (sessionCookie token (env.now + day)) "/post" StatusSeeOther, db2)) := by
  generalize hout : loginCreateSession env db userID = out
  unfold loginCreateSession at hout
  split at hout; · subst hout; exact .inl ⟨rfl, rfl⟩
  rename_i token htok
  split at hout; · subst hout; exact .inl ⟨rfl, rfl⟩
  rename_i hne
  simp only [] at hout
  split at hout; · subst hout; exact .inl ⟨rfl, rfl⟩
  rename_i db1 hdel
  have hdel2 := (dbExec_ok hdel).2
  simp only [Except.ok.injEq] at hdel2
  subst hdel2
  split at hout
  · rename_i e hins
    subst hout
    refine .inr (.inl ⟨?_, rfl⟩)
    unfold dbExec at hins
    split at hins
    · exact .inl ‹_›
    · exact .inr ⟨token, e, hins⟩
  · rename_i db2 hins
    subst hout
    exact .inr (.inr ⟨token, db2, htok, hne, (dbExec_ok hins).2, rfl⟩)

/-- The two ways `loginCheck` can end. -/
theorem loginCheck_cases (env : Env) (db : Store) (email password : String) :
    ((loginCheck env db email password).2 = db ∧
      (loginCheck env db email password).1.cookie = none) ∨
    ∃ user, db.selectUser email = some user ∧
      env.bcryptCompare user.password_hash password = true ∧
      loginCheck env db email password = loginCreateSession env db user.id := by
  generalize hout : loginCheck env db email password = out
  unfold loginCheck at hout
  split at hout; · subst hout; exact .inl ⟨rfl, rfl⟩
  split at hout
  · subst hout; exact .inl ⟨rfl, rfl⟩
  · subst hout; exact .inl ⟨rfl, rfl⟩
  rename_i user hsel
  have hsel2 := (dbExec_ok hsel).2
  simp only [Except.ok.injEq] at hsel2
  split at hout; · subst hout; exact .inl ⟨rfl, rfl⟩
  rename_i hcmp
  exact .inr ⟨user, hsel2, by simpa using hcmp, hout.symm⟩

/-- The two ways `signupTx` can end. -/
theorem signupTx_cases (env : Env) (db : Store) (username email hash : String) :
    ((signupTx env db username email hash).2 = db ∧
      (signupTx env db username email hash).1.cookie = none) ∨
    (∃ token userID db1 db2,
      db.insertUser username email hash (sqlDatetime env.sqlNow) = .ok (db1, userID) ∧
      generateRandomToken env.rand = some token ∧ token ≠ "" ∧
      db1.insertSession token userID (env.format (env.now + day)) = .ok db2 ∧
      (env.fails .begin = false ∧ env.fails .insertUser = false ∧
        env.fails .lastInsertId = false ∧ env.fails .insertSession = false ∧
        env.fails .commit = false) ∧
      signupTx env db username email hash =
        (.redirect (sessionCookie token (env.now + day)) "/" StatusSeeOther, db2)) := by
  generalize hout : signupTx env db username email hash = out
  unfold signupTx at hout
  split at hout; · subst hout; exact .inl ⟨rfl, rfl⟩
  rename_i tx htx
  have htx2 := (dbExec_ok htx).2
  simp only [Except.ok.injEq] at htx2
  subst htx2
  split at hout; · subst hout; exact .inl ⟨rfl, rfl⟩
  rename_i tx1 res hinsU
  split at hout; · subst hout; exact .inl ⟨rfl, rfl⟩
  rename_i userID hid
  have hid2 := (dbExec_ok hid).2
  simp only [Except.ok.injEq] at hid2
  subst hid2
  split at hout; · subst hout; exact .inl ⟨rfl, rfl⟩
  rename_i token htok
  split at hout; · subst hout; exact .inl ⟨rfl, rfl⟩
  rename_i hne
  simp only [] at hout
  split at hout; · subst hout; exact .inl ⟨rfl, rfl⟩
  rename_i tx2 hinsS
  split at hout; · subst hout; exact .inl ⟨rfl, rfl⟩
  rename_i committed hcommit
  have hc2 := (dbExec_ok hcommit).2
  simp only [Except.ok.injEq] at hc2
  subst hc2
  subst hout
  exact .inr ⟨token, res, tx1, tx2, (dbExec_ok hinsU).2, htok, hne, (dbExec_ok hinsS).2,
    ⟨(dbExec_ok htx).1, (dbExec_ok hinsU).1, (dbExec_ok hid).1, (dbExec_ok hinsS).1,
      (dbExec_ok hcommit).1⟩, rfl⟩

/-- The two ways `signupCheck` can end. -/
theorem signupCheck_cases (env : Env) (db : Store) (username email password : String) :
    ((signupCheck env db username email password).2 = db ∧
      (signupCheck env db username email password).1.cookie = none) ∨
    ∃ hash, emailRe.MatchString email = true ∧ usernameRe.MatchString username = true ∧
      db.countEmail email = 0 ∧ db.countUsername username = 0 ∧
      env.bcryptGenerate password = some hash ∧
      signupCheck env db username email password = signupTx env db username email hash := by
  generalize hout : signupCheck env db username email password = out
  unfold signupCheck at hout
  split at hout; · subst hout; exact .inl ⟨rfl, rfl⟩
  split at hout; · subst hout; exact .inl ⟨rfl, rfl⟩
  rename_i hemail
  split at hout; · subst hout; exact .inl ⟨rfl, rfl⟩
  rename_i huser
  split at hout; · subst hout; exact .inl ⟨rfl, rfl⟩
  split at hout; · subst hout; exact .inl ⟨rfl, rfl⟩
  rename_i n hn
  have hn2 := (dbExec_ok hn).2
  simp only [Except.ok.injEq] at hn2
  split at hout; · subst hout; exact .inl ⟨rfl, rfl⟩
  rename_i hn0
  split at hout; · subst hout; exact .inl ⟨rfl, rfl⟩
  rename_i m hm
  have hm2 := (dbExec_ok hm).2
  simp only [Except.ok.injEq] at hm2
  split at hout; · subst hout; exact .inl ⟨rfl, rfl⟩
  rename_i hm0
  split at hout; · subst hout; exact .inl ⟨rfl, rfl⟩
  rename_i hash hhash
  exact .inr ⟨hash, by simpa using hemail, by simpa using huser, by omega, by omega,
    hhash, hout.symm⟩

/-! ## One session per user -/

theorem sessionCount_delete_le (db : Store) (userID u : Nat) :
    sessionCount (db.deleteSessions userID).sessions u ≤ sessionCount db.sessions u := by
  unfold sessionCount Store.deleteSessions
  exact List.Sublist.countP_le _ (List.filter_sublist _)

theorem sessionCount_insert {db db2 : Store} {token expires : String} {userID : Nat}
    (h : db.insertSession token userID expires = .ok db2) (u : Nat) :
    sessionCount db2.sessions u = if u = userID then 1 else sessionCount db.sessions u := by
  obtain ⟨id, rfl, -, hu⟩ := insertSession_ok h
  unfold sessionCount
  simp only [List.countP_append, List.countP_cons, List.countP_nil]
  by_cases hc : u = userID
  · subst hc
    have : List.countP (fun r => decide (r.user_id = u)) db.sessions = 0 := by
      simp only [List.countP_eq_zero, decide_eq_true_eq]
      exact hu
    simp [this]
  · have : ¬ userID = u := fun e => hc e.symm
    simp [hc, this]

theorem insertUser_sessions {db db1 : Store} {username email hash created : String} {res : Nat}
    (h : db.insertUser username email hash created = .ok (db1, res)) :
    db1.sessions = db.sessions := by
  obtain ⟨rfl, -, -⟩ := insertUser_ok h
  rfl

theorem loginCreateSession_count (env : Env) (db : Store) (userID : Nat)
    (h : ∀ u, sessionCount db.sessions u ≤ 1) (u : Nat) :
    sessionCount (loginCreateSession env db userID).2.sessions u ≤ 1 := by
  rcases loginCreateSession_cases env db userID with ⟨e, -⟩ | ⟨-, e⟩ | ⟨token, db2, -, -, hins, e⟩
  · rw [e]; exact h u
  · rw [e]; exact le_trans (sessionCount_delete_le db userID u) (h u)
  · rw [e, sessionCount_insert hins]
    split
    · exact le_refl 1
    · exact le_trans (sessionCount_delete_le db userID u) (h u)

theorem signupTx_count (env : Env) (db : Store) (username email hash : String)
    (h : ∀ u, sessionCount db.sessions u ≤ 1) (u : Nat) :
    sessionCount (signupTx env db username email hash).2.sessions u ≤ 1 := by
  rcases signupTx_cases env db username email hash with
    ⟨e, -⟩ | ⟨token, userID, db1, db2, hU, -, -, hS, -, e⟩
  · rw [e]; exact h u
  · rw [e, sessionCount_insert hS, insertUser_sessions hU]
    split
    · exact le_refl 1
    · exact h u

/-- C2: at most one session row per user is an invariant of both handlers: if every user
has at most one row in `sessions` before a request, then after any request to
`LoginHandler` or to `SignupHandler`, whatever its outcome, every user still has at most
one row. -/
theorem one_session_per_user (env : Env) (r : Request) (db : Store)
    (h : ∀ u, sessionCount db.sessions u ≤ 1) :
    (∀ u, sessionCount (LoginHandler env r db).2.sessions u ≤ 1) ∧
    (∀ u, sessionCount (SignupHandler env r db).2.sessions u ≤ 1) := by
  constructor
  · intro u
    rcases LoginHandler_cases env r db with ⟨e, -⟩ | ⟨form, e⟩
    · rw [e]; exact h u
    · rw [e]
      rcases loginCheck_cases env db (formValue form "email") (formValue form "password")
        with ⟨e2, -⟩ | ⟨user, -, -, e2⟩
      · rw [e2]; exact h u
      · rw [e2]; exact loginCreateSession_count env db user.id h u
  · intro u
    rcases SignupHandler_cases env r db with ⟨e, -⟩ | ⟨form, e⟩
    · rw [e]; exact h u
    · rw [e]
      rcases signupCheck_cases env db (formValue form "username") (formValue form "email")
        (formValue form "password") with ⟨e2, -⟩ | ⟨hash, -, -, -, -, -, e2⟩
      · rw [e2]; exact h u
      · rw [e2]; exact signupTx_count env db _ _ hash h u

/-- Witness for C2: alice, who holds a session, logs in again. -/
theorem one_session_per_user_witness :
    (∀ u, sessionCount storeAlice.sessions u ≤ 1) ∧
    (∀ u, sessionCount (LoginHandler exampleEnv loginAlice storeAlice).2.sessions u ≤ 1) ∧
    (∀ u, sessionCount (SignupHandler exampleEnv loginAlice storeAlice).2.sessions u ≤ 1) :=
  have h : ∀ u, sessionCount storeAlice.sessions u ≤ 1 := by
    intro u
    simp only [sessionCount, storeAlice, List.countP_cons, List.countP_nil]
    split <;> simp
  ⟨h, one_session_per_user exampleEnv loginAlice storeAlice h⟩

/-! ## Atomicity -/

theorem generateRandomToken_none : generateRandomToken none = some "" := rfl

/-- C8: signup is all-or-nothing on the store. For every request, `SignupHandler` either
leaves the store exactly as before and sets no cookie, or commits both the new user row
and a session row owned by it and sets the cookie of that session; and when a step of the
transaction fails (user insert, reading the new id, token generation, session insert,
commit) it is the first of the two. -/
theorem signup_all_or_nothing (env : Env) (r : Request) (db : Store) :
    (((SignupHandler env r db).2 = db ∧ (SignupHandler env r db).1.cookie = none) ∨
      ∃ (u : User) (s : Session),
        (SignupHandler env r db).2.users = db.users ++ [u] ∧
        (SignupHandler env r db).2.sessions = db.sessions ++ [s] ∧
        s.user_id = u.id ∧
        (SignupHandler env r db).1.cookie = some (sessionCookie s.token (env.now + day))) ∧
    ((env.fails .insertUser = true ∨ env.fails .lastInsertId = true ∨ env.rand = none ∨
        env.fails .insertSession = true ∨ env.fails .commit = true) →
      (SignupHandler env r db).2 = db ∧ (SignupHandler env r db).1.cookie = none) := by
  have key : ((SignupHandler env r db).2 = db ∧ (SignupHandler env r db).1.cookie = none) ∨
      ∃ hash token userID db1 db2 username email,
        db.insertUser username email hash (sqlDatetime env.sqlNow) = .ok (db1, userID) ∧
        generateRandomToken env.rand = some token ∧ token ≠ "" ∧
        db1.insertSession token userID (env.format (env.now + day)) = .ok db2 ∧
        (env.fails .begin = false ∧ env.fails .insertUser = false ∧
          env.fails .lastInsertId = false ∧ env.fails .insertSession = false ∧
          env.fails .commit = false) ∧
        SignupHandler env r db =
          (.redirect (sessionCookie token (env.now + day)) "/" StatusSeeOther, db2) := by
    rcases SignupHandler_cases env r db with h | ⟨form, e⟩
    · exact .inl h
    · rcases signupCheck_cases env db (formValue form "username") (formValue form "email")
        (formValue form "password") with h | ⟨hash, -, -, -, -, -, e2⟩
      · rw [e]; exact .inl h
      · rcases signupTx_cases env db (formValue form "username") (formValue form "email") hash
          with h | ⟨token, userID, db1, db2, hU, htok, hne, hS, hf, e3⟩
        · rw [e, e2]; exact .inl h
        · exact .inr ⟨hash, token, userID, db1, db2, _, _, hU, htok, hne, hS, hf,
            by rw [e, e2, e3]⟩
  constructor
  · rcases key with h | ⟨hash, token, userID, db1, db2, username, email, hU, -, -, hS, -, e⟩
    · exact .inl h
    · obtain ⟨rfl, -, -⟩ := insertUser_ok hU
      obtain ⟨id, rfl, -, -⟩ := insertSession_ok hS
      exact .inr ⟨_, _, by rw [e], by rw [e], rfl, by rw [e]; rfl⟩
  · intro hfail
    rcases key with h | ⟨hash, token, userID, db1, db2, username, email, -, htok, hne, -, hf, -⟩
    · exact h
    · exfalso
      obtain ⟨-, h1, h2, h3, h4⟩ := hf
      rcases hfail with h | h | h | h | h
      · rw [h1] at h; cases h
      · rw [h2] at h; cases h
      · rw [h, generateRandomToken_none] at htok
        exact hne (Option.some.inj htok).symm
      · rw [h3] at h; cases h
      · rw [h4] at h; cases h

/-- Witness for C8: the commit of alice's signup fails on the empty store. -/
theorem signup_all_or_nothing_witness :
    (SignupHandler { exampleEnv with fails := fun c => c = .commit } signupAlice emptyStore).2
        = emptyStore ∧
    (SignupHandler { exampleEnv with fails := fun c => c = .commit } signupAlice
        emptyStore).1.cookie = none :=
  (signup_all_or_nothing { exampleEnv with fails := fun c => c = .commit } signupAlice
    emptyStore).2 (.inr (.inr (.inr (.inr (by decide)))))

set_option maxRecDepth 1000000 in
/-- C1, the failing input: alice holds a session and logs in with her password; the
`DELETE` of her old session succeeds and the driver fails the `INSERT` of the new one. The
response is the error page of status 500, and table `sessions` has lost alice's row: it is
not as it was before the request. The same happens without any failure of the driver when
the new token is already the token of a session of another user. -/
theorem login_replacement_not_atomic :
    LoginHandler { exampleEnv with fails := fun c => c = .loginInsert } loginAlice storeAlice
      = (.render 500, { storeAlice with sessions := [] }) ∧
    (LoginHandler { exampleEnv with fails := fun c => c = .loginInsert } loginAlice
      storeAlice).2.sessions ≠ storeAlice.sessions ∧
    LoginHandler exampleEnv loginAlice storeAliceBob
      = (.render 500, { storeAliceBob with sessions := [⟨2, token07, 2, "2023-11-15 22:13:20"⟩] }) := by
  refine ⟨?_, ?_, ?_⟩ <;> decide

/-! ## Login -/

theorem loginCheck_unknown {env : Env} {db : Store} {email password : String}
    (he : email ≠ "") (hp : password ≠ "") (hf : env.fails .loginSelect = false)
    (hsel : db.selectUser email = none) :
    loginCheck env db email password =
      (.template none "login.html" "Invalid email or password", db) := by
  unfold loginCheck
  rw [if_neg (by simp [he, hp]), dbExec_run _ hf, hsel]

theorem loginCheck_wrong {env : Env} {db : Store} {email password : String} {user : User}
    (he : email ≠ "") (hp : password ≠ "") (hf : env.fails .loginSelect = false)
    (hsel : db.selectUser email = some user)
    (hcmp : env.bcryptCompare user.password_hash password = false) :
    loginCheck env db email password =
      (.template none "login.html" "Invalid email or password", db) := by
  unfold loginCheck
  rw [if_neg (by simp [he, hp]), dbExec_run _ hf, hsel]
  simp [hcmp]

theorem loginCheck_verified {env : Env} {db : Store} {email password : String} {user : User}
    (he : email ≠ "") (hp : password ≠ "") (hf : env.fails .loginSelect = false)
    (hsel : db.selectUser email = some user)
    (hcmp : env.bcryptCompare user.password_hash password = true) :
    loginCheck env db email password = loginCreateSession env db user.id := by
  unfold loginCheck
  rw [if_neg (by simp [he, hp]), dbExec_run _ hf, hsel]
  simp [hcmp]

theorem loginCreateSession_ok {env : Env} {db db2 : Store} {userID : Nat} {token : String}
    (htok : generateRandomToken env.rand = some token) (hne : token ≠ "")
    (hdel : env.fails .loginDelete = false) (hinsf : env.fails .loginInsert = false)
    (hins : (db.deleteSessions userID).insertSession token userID
      (env.format (env.now + day)) = .ok db2) :
    loginCreateSession env db userID =
      (.redirect (sessionCookie token (env.now + day)) "/post" StatusSeeOther, db2) := by
  unfold loginCreateSession
  rw [htok]
  simp only [if_neg hne]
  rw [dbExec_run _ hdel]
  simp only []
  rw [dbExec_run _ hinsf, hins]

/-- C4: a login failure does not reveal which check failed. For a login POST with
non-empty email and password, the response when no user row matches the identifier and
the response when a row matches but the password does not verify against its hash are the
same: the login form with the message `Invalid email or password`, status 200, no cookie,
and the store is left as it was. -/
theorem login_failure_uniform (env : Env) (r : Request) (form : List (String × String))
    (db1 db2 : Store) (user : User)
    (hpost : r.isPost env form)
    (he : formValue form "email" ≠ "") (hp : formValue form "password" ≠ "")
    (hf : env.fails .loginSelect = false)
    (hnone : db1.selectUser (formValue form "email") = none)
    (hsome : db2.selectUser (formValue form "email") = some user)
    (hbad : env.bcryptCompare user.password_hash (formValue form "password") = false) :
    (LoginHandler env r db1).1 = (LoginHandler env r db2).1 ∧
    (LoginHandler env r db1).1 = .template none "login.html" "Invalid email or password" ∧
    (LoginHandler env r db1).1.statusCode = some 200 ∧
    (LoginHandler env r db1).1.cookie = none ∧
    (LoginHandler env r db1).2 = db1 ∧ (LoginHandler env r db2).2 = db2 := by
  rw [LoginHandler_post hpost, LoginHandler_post hpost, loginCheck_unknown he hp hf hnone,
    loginCheck_wrong he hp hf hsome hbad]
  exact ⟨rfl, rfl, rfl, rfl, rfl, rfl⟩

set_option maxRecDepth 1000000 in
/-- Witness for C4: a login as `a@x.com` with a wrong password, on the empty store and on
the store that holds alice. -/
theorem login_failure_uniform_witness :
    (LoginHandler exampleEnv ⟨"/login", "POST", some [("email", "a@x.com"), ("password", "guess")]⟩
        emptyStore).1 =
      (LoginHandler exampleEnv ⟨"/login", "POST", some [("email", "a@x.com"), ("password", "guess")]⟩
        storeAlice).1 :=
  (login_failure_uniform exampleEnv
    ⟨"/login", "POST", some [("email", "a@x.com"), ("password", "guess")]⟩
    [("email", "a@x.com"), ("password", "guess")] emptyStore storeAlice
    ⟨1, "alice", "a@x.com", "bcrypt:longenough1", "2023-11-14 22:13:20"⟩
    (by decide) (by decide) (by decide) (by decide) (by decide) (by decide) (by decide)).1

theorem filter_delete_self (db : Store) (userID : Nat) :
    (db.deleteSessions userID).sessions.filter (fun s => s.user_id = userID) = [] := by
  simp only [Store.deleteSessions, List.filter_filter, List.filter_eq_nil_iff]
  intro s _
  simp

theorem filter_delete_other (db : Store) (userID : Nat) :
    (db.deleteSessions userID).sessions.filter (fun s => s.user_id ≠ userID)
      = db.sessions.filter (fun s => s.user_id ≠ userID) := by
  simp only [Store.deleteSessions, List.filter_filter]
  congr 1
  funext s
  simp

/-- C3, amended: a successful login POST by user `user` (the credentials verify, a token is
generated, both writes succeed) answers with the cookie `session_token` = the new token,
`HttpOnly`, `Path=/`, `SameSite=Lax`, `Expires` = now + 24 hours; afterwards table
`sessions` holds exactly one row for the user, with the new token and, when the local zone
of the server is UTC, with the date and time of now + 24 hours, the instant of the cookie,
as expiry; every other token the user held before is gone from the table; and the rows of
all other users are unchanged. -/
theorem login_success (env : Env) (r : Request) (form : List (String × String))
    (db db2 : Store) (user : User) (token : String)
    (hpost : r.isPost env form)
    (he : formValue form "email" ≠ "") (hp : formValue form "password" ≠ "")
    (hf : env.fails .loginSelect = false)
    (hsel : db.selectUser (formValue form "email") = some user)
    (hcmp : env.bcryptCompare user.password_hash (formValue form "password") = true)
    (htok : generateRandomToken env.rand = some token) (hne : token ≠ "")
    (hdel : env.fails .loginDelete = false) (hinsf : env.fails .loginInsert = false)
    (hins : (db.deleteSessions user.id).insertSession token user.id
      (env.format (env.now + day)) = .ok db2)
    (huniq : (db.sessions.map (fun s => s.token)).Nodup) :
    LoginHandler env r db =
      (.redirect ⟨"session_token", token, env.now + day, "/", true, .lax⟩ "/post" 303, db2) ∧
    (∃ row, db2.sessions.filter (fun s => s.user_id = user.id) = [row] ∧
      row.token = token ∧ row.user_id = user.id ∧
      (env.zoneOffset (env.now + day) = 0 → row.expires_at = sqlDatetime (env.now + day))) ∧
    (∀ old ∈ db.sessions, old.user_id = user.id → old.token ≠ token →
      ∀ s ∈ db2.sessions, s.token ≠ old.token) ∧
    db2.sessions.filter (fun s => s.user_id ≠ user.id) =
      db.sessions.filter (fun s => s.user_id ≠ user.id) ∧
    db2.users = db.users := by
  refine ⟨?_, ?_, ?_, ?_, ?_⟩
  · rw [LoginHandler_post hpost, loginCheck_verified he hp hf hsel hcmp,
      loginCreateSession_ok htok hne hdel hinsf hins]
    rfl
  · obtain ⟨id, rfl, -, -⟩ := insertSession_ok hins
    refine ⟨⟨id, token, user.id, env.format (env.now + day)⟩, ?_, rfl, rfl, ?_⟩
    · simp only [List.filter_append, filter_delete_self]
      simp
    · intro hz
      show env.format (env.now + day) = sqlDatetime (env.now + day)
      unfold Env.format sqlDatetime
      rw [hz]
  · obtain ⟨id, rfl, -, -⟩ := insertSession_ok hins
    intro old hold hu hne2 s hs heq
    simp only [List.mem_append, List.mem_singleton] at hs
    rcases hs with hs | rfl
    · simp only [Store.deleteSessions, List.mem_filter] at hs
      obtain ⟨hs1, hs2⟩ := hs
      have hsame : s = old := by
        have := List.inj_on_of_nodup_map huniq hs1 hold heq
        exact this
      rw [hsame] at hs2
      simp [hu] at hs2
    · exact hne2 heq.symm
  · obtain ⟨id, rfl, -, -⟩ := insertSession_ok hins
    simp only [List.filter_append, filter_delete_other]
    simp
  · obtain ⟨id, rfl, -, -⟩ := insertSession_ok hins
    rfl

set_option maxRecDepth 1000000 in
/-- Witness for C3, amended: on a server in UTC alice, who holds the session `token08`,
logs in at 2023-11-14 22:13:20 and gets `token07`, which expires a day later. -/
theorem login_success_witness :
    LoginHandler exampleEnv loginAlice storeAlice =
        (.redirect ⟨"session_token", token07, 1700086400000000000, "/", true, .lax⟩ "/post"
            303,
          { storeAlice with sessions := [⟨2, token07, 1, "2023-11-15 22:13:20"⟩],
                            sessionSeq := 2 }) ∧
    sqlDatetime 1700086400000000000 = "2023-11-15 22:13:20" :=
  ⟨(login_success exampleEnv loginAlice [("email", "a@x.com"), ("password", "longenough1")]
    storeAlice
    { storeAlice with sessions := [⟨2, token07, 1, "2023-11-15 22:13:20"⟩], sessionSeq := 2 }
    ⟨1, "alice", "a@x.com", "bcrypt:longenough1", "2023-11-14 22:13:20"⟩ token07
    (by decide) (by decide) (by decide) (by decide) (by decide) (by decide) (by decide)
    (by decide) (by decide) (by decide) (by rfl) (by decide)).1, by decide⟩

set_option maxRecDepth 1000000 in
/-- C3, counterexample: on a server nine hours east of UTC alice logs in at
2023-11-14 22:13:20 UTC. The cookie expires at 2023-11-15 22:13:20 UTC, which is
now + 24 hours, and the row of the session holds `2023-11-16 07:13:20`: the date and time
the store writes for now + 33 hours. So it is not true that the row with the token of the
cookie always holds the date and time of the expiry of the cookie. -/
theorem login_expiry_not_utc :
    LoginHandler tokyoEnv loginAlice storeAlice =
        (.redirect ⟨"session_token", token07, 1700086400000000000, "/", true, .lax⟩ "/post"
            303,
          { storeAlice with sessions := [⟨2, token07, 1, "2023-11-16 07:13:20"⟩],
                            sessionSeq := 2 }) ∧
    tokyoEnv.now + day = 1700086400000000000 ∧
    sqlDatetime 1700086400000000000 = "2023-11-15 22:13:20" ∧
    sqlDatetime (1700086400000000000 + 9 * 3600 * 1000000000) = "2023-11-16 07:13:20" ∧
    ¬ (∀ (r : Request) (db db2 : Store) (c : Cookie) (location : String) (status : Nat),
        LoginHandler tokyoEnv r db = (.redirect c location status, db2) →
        ∀ row ∈ db2.sessions, row.token = c.value →
          row.expires_at = sqlDatetime c.expires) := by
  have e : LoginHandler tokyoEnv loginAlice storeAlice =
      (.redirect ⟨"session_token", token07, 1700086400000000000, "/", true, .lax⟩ "/post"
          303,
        { storeAlice with sessions := [⟨2, token07, 1, "2023-11-16 07:13:20"⟩],
                          sessionSeq := 2 }) := by decide
  refine ⟨e, by decide, by decide, by decide, fun h => ?_⟩
  have := h loginAlice storeAlice _ _ _ _ e ⟨2, token07, 1, "2023-11-16 07:13:20"⟩
    (by simp) rfl
  revert this
  decide

/-! ## Signup -/

theorem countEmail_pos {db : Store} {email : String} (h : ∃ u ∈ db.users, u.email = email) :
    db.countEmail email > 0 := by
  obtain ⟨u, hu, he⟩ := h
  exact List.countP_pos_iff.mpr ⟨u, hu, by simpa using he⟩

theorem countUsername_pos {db : Store} {username : String}
    (h : ∃ u ∈ db.users, u.username = username) : db.countUsername username > 0 := by
  obtain ⟨u, hu, he⟩ := h
  exact List.countP_pos_iff.mpr ⟨u, hu, by simpa using he⟩

theorem countEmail_zero {db : Store} {email : String} (h : ∀ u ∈ db.users, u.email ≠ email) :
    db.countEmail email = 0 := by
  unfold Store.countEmail
  simp only [List.countP_eq_zero, decide_eq_true_eq]
  exact h

theorem countUsername_zero {db : Store} {username : String}
    (h : ∀ u ∈ db.users, u.username ≠ username) : db.countUsername username = 0 := by
  unfold Store.countUsername
  simp only [List.countP_eq_zero, decide_eq_true_eq]
  exact h

theorem usernameRe_nonempty {s : String} (h : usernameRe.MatchString s = true) : s ≠ "" := by
  rintro rfl
  revert h
  decide

theorem emailRe_nonempty {s : String} (h : emailRe.MatchString s = true) : s ≠ "" := by
  rintro rfl
  revert h
  decide

theorem password_nonempty {s : String} (h : 8 ≤ s.utf8ByteSize) : s ≠ "" := by
  rintro rfl
  revert h
  decide

/-- The message and the header of `signupCheck` when it refuses the fields or finds a
duplicate. -/
theorem signupCheck_rejects (env : Env) (db : Store) (username email password : String) :
    ((username = "" ∨ email = "" ∨ password = "") →
      signupCheck env db username email password =
        (.template none "signup.html" "All fields are required", db)) ∧
    (¬ (username = "" ∨ email = "" ∨ password = "") →
      (emailRe.MatchString email = false →
        signupCheck env db username email password =
          (.template (some 203) "signup.html" "Invalid email", db)) ∧
      (emailRe.MatchString email = true →
        (usernameRe.MatchString username = false →
          signupCheck env db username email password =
            (.template (some 203) "signup.html" "Invalid username", db)) ∧
        (usernameRe.MatchString username = true →
          (password.utf8ByteSize < 8 →
            signupCheck env db username email password =
              (.template (some 203) "signup.html" "Password must be >= 8 chars", db)) ∧
          (8 ≤ password.utf8ByteSize → env.fails .emailCheck = false →
            ((∃ u ∈ db.users, u.email = email) →
              signupCheck env db username email password =
                (.template (some 203) "signup.html" "Email already taken", db)) ∧
            ((∀ u ∈ db.users, u.email ≠ email) → env.fails .usernameCheck = false →
              (∃ u ∈ db.users, u.username = username) →
              signupCheck env db username email password =
                (.template (some 203) "signup.html" "Username already taken", db)))))) := by
  refine ⟨fun h => ?_, fun h => ⟨fun he => ?_, fun he => ⟨fun hu => ?_, fun hu =>
    ⟨fun hp => ?_, fun hp hf => ⟨fun hd => ?_, fun hnd hf2 hd => ?_⟩⟩⟩⟩⟩
  · unfold signupCheck; rw [if_pos h]
  · unfold signupCheck; rw [if_neg h, if_pos (by simp [he])]; rfl
  · unfold signupCheck
    rw [if_neg h, if_neg (by simp [he]), if_pos (by simp [hu])]; rfl
  · unfold signupCheck
    rw [if_neg h, if_neg (by simp [he]), if_neg (by simp [hu]), if_pos hp]; rfl
  · unfold signupCheck
    rw [if_neg h, if_neg (by simp [he]), if_neg (by simp [hu]), if_neg (by omega),
      dbExec_run _ hf]
    simp only []
    rw [if_pos (countEmail_pos hd)]; rfl
  · unfold signupCheck
    rw [if_neg h, if_neg (by simp [he]), if_neg (by simp [hu]), if_neg (by omega),
      dbExec_run _ hf]
    simp only []
    rw [if_neg (by rw [countEmail_zero hnd]; omega), dbExec_run _ hf2]
    simp only []
    rw [if_pos (countUsername_pos hd)]; rfl

theorem signupCheck_passes {env : Env} {db : Store} {username email password hash : String}
    (hu : usernameRe.MatchString username = true) (he : emailRe.MatchString email = true)
    (hp : 8 ≤ password.utf8ByteSize)
    (hf : env.fails .emailCheck = false) (hf2 : env.fails .usernameCheck = false)
    (hne : ∀ u ∈ db.users, u.email ≠ email) (hnu : ∀ u ∈ db.users, u.username ≠ username)
    (hh : env.bcryptGenerate password = some hash) :
    signupCheck env db username email password = signupTx env db username email hash := by
  unfold signupCheck
  rw [if_neg (by simp [usernameRe_nonempty hu, emailRe_nonempty he, password_nonempty hp]),
    if_neg (by simp [he]), if_neg (by simp [hu]), if_neg (by omega), dbExec_run _ hf]
  simp only []
  rw [if_neg (by rw [countEmail_zero hne]; omega), dbExec_run _ hf2]
  simp only []
  rw [if_neg (by rw [countUsername_zero hnu]; omega), hh]

theorem signupTx_ok {env : Env} {db db1 db2 : Store} {username email hash token : String}
    {userID : Nat} (hf : ∀ c, env.fails c = false)
    (hU : db.insertUser username email hash (sqlDatetime env.sqlNow) = .ok (db1, userID))
    (htok : generateRandomToken env.rand = some token) (hne : token ≠ "")
    (hS : db1.insertSession token userID (env.format (env.now + day)) = .ok db2) :
    signupTx env db username email hash =
      (.redirect (sessionCookie token (env.now + day)) "/" StatusSeeOther, db2) := by
  unfold signupTx
  rw [dbExec_run _ (hf _)]
  simp only []
  rw [dbExec_run _ (hf _), hU]
  simp only []
  rw [dbExec_run _ (hf _)]
  simp only []
  rw [htok]
  simp only [if_neg hne]
  rw [dbExec_run _ (hf _), hS]
  simp only []
  rw [dbExec_run _ (hf _)]

/-- C6: a signup POST whose fields pass the format checks and whose email is the email of
an existing user row is rejected with the message `Email already taken`; tables `users`
and `sessions` are unchanged (no new user row, same user count, no session) and no cookie
is set. -/
theorem signup_duplicate_email (env : Env) (r : Request) (form : List (String × String))
    (db : Store) (hpost : r.isPost env form)
    (he : emailRe.MatchString (formValue form "email") = true)
    (hu : usernameRe.MatchString (formValue form "username") = true)
    (hp : 8 ≤ (formValue form "password").utf8ByteSize)
    (hf : env.fails .emailCheck = false)
    (hdup : ∃ u ∈ db.users, u.email = formValue form "email") :
    (∃ header, (SignupHandler env r db).1 =
      .template header "signup.html" "Email already taken") ∧
    (SignupHandler env r db).2 = db ∧
    (SignupHandler env r db).2.users = db.users ∧
    (SignupHandler env r db).2.users.length = db.users.length ∧
    (SignupHandler env r db).2.sessions = db.sessions ∧
    (SignupHandler env r db).1.cookie = none := by
  have hne : ¬ (formValue form "username" = "" ∨ formValue form "email" = "" ∨
      formValue form "password" = "") := by
    simp [usernameRe_nonempty hu, emailRe_nonempty he, password_nonempty hp]
  have e := ((((signupCheck_rejects env db (formValue form "username") (formValue form "email")
    (formValue form "password")).2 hne).2 he).2 hu).2 hp hf |>.1 hdup
  rw [SignupHandler_post hpost, e]
  exact ⟨⟨_, rfl⟩, rfl, rfl, rfl, rfl, rfl⟩

set_option maxRecDepth 1000000 in
/-- Witness for C6: alice signs up a second time. -/
theorem signup_duplicate_email_witness :
    (SignupHandler exampleEnv signupAlice storeAlice).2 = storeAlice :=
  (signup_duplicate_email exampleEnv signupAlice
    [("username", "alice"), ("email", "a@x.com"), ("password", "longenough1")] storeAlice
    (by decide) (by decide) (by decide) (by decide) (by decide)
    ⟨⟨1, "alice", "a@x.com", "bcrypt:longenough1", "2023-11-14 22:13:20"⟩, by decide, by decide⟩).2.1

/-- C7, amended: a signup POST whose username, email and password pass the format checks
and whose email and username occur in no user row, when hashing, token generation and the
store writes succeed, adds exactly one user row with that username and email and exactly
one session row owned by the new user, whose expiry is, when the local zone of the server
is UTC, the date and time of now + 24 hours; it sets the cookie `session_token` with the
token of that row and `Expires` = now + 24 hours, and redirects with status 303 to `/`. -/
theorem signup_success (env : Env) (r : Request) (form : List (String × String))
    (db db1 db2 : Store) (hash token : String) (userID : Nat)
    (hpost : r.isPost env form)
    (hu : usernameRe.MatchString (formValue form "username") = true)
    (he : emailRe.MatchString (formValue form "email") = true)
    (hp : 8 ≤ (formValue form "password").utf8ByteSize)
    (hne : ∀ u ∈ db.users, u.email ≠ formValue form "email")
    (hnu : ∀ u ∈ db.users, u.username ≠ formValue form "username")
    (hh : env.bcryptGenerate (formValue form "password") = some hash)
    (htok : generateRandomToken env.rand = some token) (htne : token ≠ "")
    (hf : ∀ c, env.fails c = false)
    (hU : db.insertUser (formValue form "username") (formValue form "email") hash
      (sqlDatetime env.sqlNow) = .ok (db1, userID))
    (hS : db1.insertSession token userID (env.format (env.now + day)) = .ok db2) :
    SignupHandler env r db =
      (.redirect ⟨"session_token", token, env.now + day, "/", true, .lax⟩ "/" 303, db2) ∧
    db2.users = db.users ++
      [⟨userID, formValue form "username", formValue form "email", hash,
        sqlDatetime env.sqlNow⟩] ∧
    ∃ row, db2.sessions = db.sessions ++ [row] ∧ row.token = token ∧ row.user_id = userID ∧
      (env.zoneOffset (env.now + day) = 0 → row.expires_at = sqlDatetime (env.now + day)) := by
  refine ⟨?_, ?_, ?_⟩
  · rw [SignupHandler_post hpost, signupCheck_passes hu he hp (hf _) (hf _) hne hnu hh,
      signupTx_ok hf hU htok htne hS]
    rfl
  · obtain ⟨rfl, -, -⟩ := insertUser_ok hU
    obtain ⟨id, rfl, -, -⟩ := insertSession_ok hS
    rfl
  · obtain ⟨rfl, -, -⟩ := insertUser_ok hU
    obtain ⟨id, rfl, -, -⟩ := insertSession_ok hS
    refine ⟨⟨id, token, userID, env.format (env.now + day)⟩, rfl, rfl, rfl, ?_⟩
    intro hz
    show env.format (env.now + day) = sqlDatetime (env.now + day)
    unfold Env.format sqlDatetime
    rw [hz]

set_option maxRecDepth 1000000 in
/-- Witness for C7, amended: alice / a@x.com / longenough1 on the empty store, on a server
in UTC at 2023-11-14 22:13:20. -/
theorem signup_success_witness :
    SignupHandler exampleEnv signupAlice emptyStore =
        (.redirect ⟨"session_token", token07, 1700086400000000000, "/", true, .lax⟩ "/" 303,
          ⟨[⟨1, "alice", "a@x.com", "bcrypt:longenough1", "2023-11-14 22:13:20"⟩],
            [⟨1, token07, 1, "2023-11-15 22:13:20"⟩], 1, 1⟩) ∧
    sqlDatetime 1700086400000000000 = "2023-11-15 22:13:20" :=
  ⟨(signup_success exampleEnv signupAlice
    [("username", "alice"), ("email", "a@x.com"), ("password", "longenough1")]
    emptyStore
    ⟨[⟨1, "alice", "a@x.com", "bcrypt:longenough1", "2023-11-14 22:13:20"⟩], [], 1, 0⟩
    ⟨[⟨1, "alice", "a@x.com", "bcrypt:longenough1", "2023-11-14 22:13:20"⟩],
      [⟨1, token07, 1, "2023-11-15 22:13:20"⟩], 1, 1⟩
    "bcrypt:longenough1" token07 1
    (by decide) (by decide) (by decide) (by decide) (by decide) (by decide) (by rfl)
    (by rfl) (by decide) (by intro c; rfl) (by rfl) (by rfl)).1, by decide⟩

set_option maxRecDepth 1000000 in
/-- C7, counterexample: on a server nine hours east of UTC alice signs up at
2023-11-14 22:13:20 UTC. The user row is created at `2023-11-14 22:13:20`, the cookie
expires at 2023-11-15 22:13:20 UTC, which is now + 24 hours, and the row of the session
holds `2023-11-16 07:13:20`: the date and time the store writes for now + 33 hours. So it
is not true that the session row a signup adds always holds the date and time of
now + 24 hours. -/
theorem signup_expiry_not_utc :
    SignupHandler tokyoEnv signupAlice emptyStore =
        (.redirect ⟨"session_token", token07, 1700086400000000000, "/", true, .lax⟩ "/" 303,
          ⟨[⟨1, "alice", "a@x.com", "bcrypt:longenough1", "2023-11-14 22:13:20"⟩],
            [⟨1, token07, 1, "2023-11-16 07:13:20"⟩], 1, 1⟩) ∧
    tokyoEnv.now + day = 1700086400000000000 ∧
    sqlDatetime 1700086400000000000 = "2023-11-15 22:13:20" ∧
    sqlDatetime (1700086400000000000 + 9 * 3600 * 1000000000) = "2023-11-16 07:13:20" ∧
    ¬ (∀ (r : Request) (db db2 : Store) (c : Cookie) (location : String) (status : Nat),
        SignupHandler tokyoEnv r db = (.redirect c location status, db2) →
        ∀ row ∈ db2.sessions, row.token = c.value →
          row.expires_at = sqlDatetime (tokyoEnv.now + day)) := by
  have e : SignupHandler tokyoEnv signupAlice emptyStore =
      (.redirect ⟨"session_token", token07, 1700086400000000000, "/", true, .lax⟩ "/" 303,
        ⟨[⟨1, "alice", "a@x.com", "bcrypt:longenough1", "2023-11-14 22:13:20"⟩],
          [⟨1, token07, 1, "2023-11-16 07:13:20"⟩], 1, 1⟩) := by decide
  refine ⟨e, by decide, by decide, by decide, fun h => ?_⟩
  have := h signupAlice emptyStore _ _ _ _ e ⟨1, token07, 1, "2023-11-16 07:13:20"⟩
    (by simp) rfl
  revert this
  decide

/-- What `SignupHandler` answers to a signup POST it rejects for a validation failure (a
missing field, an email or a username not matching its pattern, a password shorter than 8
bytes) or for a duplicate email or username: the signup form with a non-empty error
message, the store left as it was, no status header when a field is missing and the
header 203 in the other cases. -/
theorem signup_rejection_status (env : Env) (r : Request) (form : List (String × String))
    (db : Store) (hpost : r.isPost env form)
    (hrej : (formValue form "username" = "" ∨ formValue form "email" = "" ∨
          formValue form "password" = "") ∨
      emailRe.MatchString (formValue form "email") = false ∨
      usernameRe.MatchString (formValue form "username") = false ∨
      (formValue form "password").utf8ByteSize < 8 ∨
      (env.fails .emailCheck = false ∧ ∃ u ∈ db.users, u.email = formValue form "email") ∨
      (env.fails .emailCheck = false ∧ env.fails .usernameCheck = false ∧
        ∃ u ∈ db.users, u.username = formValue form "username")) :
    ∃ header message,
      SignupHandler env r db = (.template header "signup.html" message, db) ∧
      message ≠ "" ∧
      (((formValue form "username" = "" ∨ formValue form "email" = "" ∨
            formValue form "password" = "") ∧
          header = none ∧ (SignupHandler env r db).1.statusCode = some 200) ∨
        (¬ (formValue form "username" = "" ∨ formValue form "email" = "" ∨
            formValue form "password" = "") ∧
          header = some 203 ∧ (SignupHandler env r db).1.statusCode = some 203)) := by
  have key := signupCheck_rejects env db (formValue form "username") (formValue form "email")
    (formValue form "password")
  rw [SignupHandler_post hpost]
  by_cases hm : formValue form "username" = "" ∨ formValue form "email" = "" ∨
      formValue form "password" = ""
  · exact ⟨_, _, key.1 hm, by decide, .inl ⟨hm, rfl, by rw [key.1 hm]; rfl⟩⟩
  have k2 := key.2 hm
  cases he : emailRe.MatchString (formValue form "email") with
  | false => exact ⟨_, _, k2.1 he, by decide, .inr ⟨hm, rfl, by rw [k2.1 he]; rfl⟩⟩
  | true =>
  have k3 := k2.2 he
  cases hu : usernameRe.MatchString (formValue form "username") with
  | false => exact ⟨_, _, k3.1 hu, by decide, .inr ⟨hm, rfl, by rw [k3.1 hu]; rfl⟩⟩
  | true =>
  have k4 := k3.2 hu
  by_cases hp : (formValue form "password").utf8ByteSize < 8
  · exact ⟨_, _, k4.1 hp, by decide, .inr ⟨hm, rfl, by rw [k4.1 hp]; rfl⟩⟩
  have hf : env.fails .emailCheck = false := by
    rcases hrej with h | h | h | h | h | h
    · exact absurd h hm
    · rw [he] at h; cases h
    · rw [hu] at h; cases h
    · exact absurd h hp
    · exact h.1
    · exact h.1
  have k5 := k4.2 (by omega) hf
  by_cases hd : ∃ u ∈ db.users, u.email = formValue form "email"
  · exact ⟨_, _, k5.1 hd, by decide, .inr ⟨hm, rfl, by rw [k5.1 hd]; rfl⟩⟩
  have hnd : ∀ u ∈ db.users, u.email ≠ formValue form "email" :=
    fun u hu2 heq => hd ⟨u, hu2, heq⟩
  have hdu : env.fails .usernameCheck = false ∧
      ∃ u ∈ db.users, u.username = formValue form "username" := by
    rcases hrej with h | h | h | h | h | h
    · exact absurd h hm
    · rw [he] at h; cases h
    · rw [hu] at h; cases h
    · exact absurd h hp
    · exact absurd h.2 hd
    · exact h.2
  have e := k5.2 hnd hdu.1 hdu.2
  exact ⟨_, _, e, by decide, .inr ⟨hm, rfl, by rw [e]; rfl⟩⟩

set_option maxRecDepth 1000000 in
/-- C5, the failing inputs: three rejected signups whose status is not a client error. An
email without `@` and a second signup of alice are answered with the signup form and the
status 203, a signup without password with the signup form and the status 200. So it is
not true that every re-rendering of the signup form with an error message has a status
from 400 to 499. -/
theorem signup_rejection_not_client_error :
    ¬ (∀ (r : Request) (db : Store) (message : String) (header : Option Nat),
        SignupHandler exampleEnv r db = (.template header "signup.html" message, db) →
        message ≠ "" →
        ∃ status, (SignupHandler exampleEnv r db).1.statusCode = some status ∧
          400 ≤ status ∧ status < 500) ∧
    (SignupHandler exampleEnv
        ⟨"/signup", "POST",
          some [("username", "alice"), ("email", "alice"), ("password", "longenough1")]⟩
        emptyStore).1 = .template (some 203) "signup.html" "Invalid email" ∧
    (SignupHandler exampleEnv signupAlice storeAlice).1
      = .template (some 203) "signup.html" "Email already taken" ∧
    (SignupHandler exampleEnv
        ⟨"/signup", "POST", some [("username", "alice"), ("email", "a@x.com")]⟩
        emptyStore).1 = .template none "signup.html" "All fields are required" ∧
    (Response.template (some 203) "signup.html" "Invalid email").statusCode = some 203 ∧
    (Response.template none "signup.html" "All fields are required").statusCode
      = some 200 := by
  refine ⟨?_, by decide, by decide, by decide, rfl, rfl⟩
  intro h
  obtain ⟨status, hs, h400, -⟩ := h
    ⟨"/signup", "POST",
      some [("username", "alice"), ("email", "alice"), ("password", "longenough1")]⟩
    emptyStore "Invalid email" (some 203) (by decide) (by decide)
  have : (SignupHandler exampleEnv
      ⟨"/signup", "POST",
        some [("username", "alice"), ("email", "alice"), ("password", "longenough1")]⟩
      emptyStore).1.statusCode = some 203 := by decide
  rw [this] at hs
  cases hs
  omega

/-! ## The patterns -/

theorem iterUpTo_sound {f : List Char → List (List Char)} {P : List Char → Prop}
    (hf : ∀ s t, t ∈ f s → ∃ w, s = w ++ t ∧ P w) :
    ∀ n s t, t ∈ iterUpTo f n s →
      ∃ ws : List (List Char), ws.length ≤ n ∧ s = ws.flatten ++ t ∧ ∀ x ∈ ws, P x := by
  intro n
  induction n with
  | zero =>
    intro s t h
    simp only [iterUpTo, List.mem_singleton] at h
    exact ⟨[], by simp, by simp [h], by simp⟩
  | succ n ih =>
    intro s t h
    simp only [iterUpTo, List.mem_cons, List.mem_flatMap] at h
    rcases h with h | ⟨m, hm, ht⟩
    · exact ⟨[], by simp, by simp [h], by simp⟩
    · obtain ⟨w, rfl, hw⟩ := hf s m hm
      obtain ⟨ws, hlen, rfl, hws⟩ := ih m t ht
      refine ⟨w :: ws, by simp [hlen], by simp, ?_⟩
      intro x hx
      rcases List.mem_cons.mp hx with rfl | hx
      · exact hw
      · exact hws x hx

theorem iterPlus_sound {f : List Char → List (List Char)} {P : List Char → Prop}
    (hf : ∀ s t, t ∈ f s → ∃ w, s = w ++ t ∧ P w) :
    ∀ fuel s t, t ∈ iterPlus f fuel s →
      ∃ ws : List (List Char), ws ≠ [] ∧ s = ws.flatten ++ t ∧ ∀ x ∈ ws, P x := by
  intro fuel
  induction fuel with
  | zero => intro s t h; simp [iterPlus] at h
  | succ n ih =>
    intro s t h
    simp only [iterPlus, List.mem_flatMap, List.mem_cons] at h
    obtain ⟨m, hm, ht⟩ := h
    obtain ⟨w, rfl, hw⟩ := hf s m hm
    rcases ht with rfl | ht
    · exact ⟨[w], by simp, by simp, by simpa using hw⟩
    · obtain ⟨ws, -, rfl, hws⟩ := ih m t ht
      refine ⟨w :: ws, by simp, by simp, ?_⟩
      intro x hx
      rcases List.mem_cons.mp hx with rfl | hx
      · exact hw
      · exact hws x hx

/-- Every residual of `run` is what is left after a word the expression denotes. -/
theorem Regex.run_sound (r : Regex) :
    ∀ s t, t ∈ r.run s → ∃ w, s = w ++ t ∧ r.Matches w := by
  induction r with
  | cls p =>
    intro s t h
    cases s with
    | nil => simp [Regex.run] at h
    | cons c s =>
      simp only [Regex.run] at h
      split at h
      · simp only [List.mem_singleton] at h
        exact ⟨[c], by simp [h], c, rfl, ‹_›⟩
      · simp at h
  | lit c =>
    intro s t h
    cases s with
    | nil => simp [Regex.run] at h
    | cons d s =>
      simp only [Regex.run] at h
      split at h
      · simp only [List.mem_singleton] at h
        rename_i hcd
        exact ⟨[c], by simp [h, hcd], rfl⟩
      · simp at h
  | cat a b iha ihb =>
    intro s t h
    simp only [Regex.run, List.mem_flatMap] at h
    obtain ⟨m, hm, ht⟩ := h
    obtain ⟨u, rfl, hu⟩ := iha s m hm
    obtain ⟨v, rfl, hv⟩ := ihb m t ht
    exact ⟨u ++ v, by simp, u, v, rfl, hu, hv⟩
  | opt a ih =>
    intro s t h
    simp only [Regex.run, List.mem_cons] at h
    rcases h with rfl | h
    · exact ⟨[], rfl, .inl rfl⟩
    · obtain ⟨w, rfl, hw⟩ := ih s t h
      exact ⟨w, rfl, .inr hw⟩
  | upTo n a ih =>
    intro s t h
    obtain ⟨ws, hlen, rfl, hws⟩ := iterUpTo_sound ih n s t h
    exact ⟨ws.flatten, rfl, ws, hlen, rfl, hws⟩
  | plus a ih =>
    intro s t h
    obtain ⟨ws, hne, rfl, hws⟩ := iterPlus_sound ih _ s t h
    exact ⟨ws.flatten, rfl, ws, hne, rfl, hws⟩

theorem MatchString_sound {re : Regex} {s : String} (h : re.MatchString s = true) :
    re.Matches s.toList := by
  simp only [Regex.MatchString, List.any_eq_true, List.isEmpty_iff] at h
  obtain ⟨t, ht, rfl⟩ := h
  obtain ⟨w, hw, hm⟩ := re.run_sound _ _ ht
  rw [hw]
  simpa using hm

theorem iterUpTo_complete {f : List Char → List (List Char)} {P : List Char → Prop}
    (hf : ∀ w t, P w → t ∈ f (w ++ t)) :
    ∀ (ws : List (List Char)) (n : Nat) (t : List Char), ws.length ≤ n → (∀ x ∈ ws, P x) →
      t ∈ iterUpTo f n (ws.flatten ++ t) := by
  intro ws
  induction ws with
  | nil =>
    intro n t _ _
    cases n <;> simp [iterUpTo]
  | cons w ws ih =>
    intro n t hlen hws
    cases n with
    | zero => simp at hlen
    | succ n =>
      simp only [iterUpTo, List.mem_cons, List.mem_flatMap]
      refine .inr ⟨ws.flatten ++ t, ?_, ih n t (by simpa using hlen)
        (fun x hx => hws x (List.mem_cons_of_mem _ hx))⟩
      have := hf w (ws.flatten ++ t) (hws w (List.mem_cons_self _ _))
      simpa using this

theorem iterPlus_complete {f : List Char → List (List Char)} {P : List Char → Prop}
    (hf : ∀ w t, P w → t ∈ f (w ++ t)) :
    ∀ (ws : List (List Char)) (fuel : Nat) (t : List Char), ws ≠ [] → ws.length ≤ fuel →
      (∀ x ∈ ws, P x) → t ∈ iterPlus f fuel (ws.flatten ++ t) := by
  intro ws
  induction ws with
  | nil => intro _ _ h; exact absurd rfl h
  | cons w ws ih =>
    intro fuel t _ hlen hws
    cases fuel with
    | zero => simp at hlen
    | succ n =>
      simp only [iterPlus, List.mem_flatMap, List.mem_cons]
      have hw := hf w (ws.flatten ++ t) (hws w (List.mem_cons_self _ _))
      refine ⟨ws.flatten ++ t, by simpa using hw, ?_⟩
      cases ws with
      | nil => exact .inl (by simp)
      | cons v vs =>
        exact .inr (ih n t (by simp) (by simpa using hlen)
          (fun x hx => hws x (List.mem_cons_of_mem _ hx)))

theorem length_le_flatten (ws : List (List Char)) (h : ∀ x ∈ ws, x ≠ []) :
    ws.length ≤ ws.flatten.length := by
  induction ws with
  | nil => simp
  | cons w ws ih =>
    have hw : w ≠ [] := h w (List.mem_cons_self _ _)
    have := ih (fun x hx => h x (List.mem_cons_of_mem _ hx))
    have : 0 < w.length := List.length_pos.mpr hw
    simp only [List.flatten_cons, List.length_append, List.length_cons]
    omega

theorem flatten_filter_nonempty (ws : List (List Char)) :
    (ws.filter (fun x => !x.isEmpty)).flatten = ws.flatten := by
  induction ws with
  | nil => rfl
  | cons w ws ih =>
    cases w with
    | nil => simpa [List.filter_cons] using ih
    | cons c w => simp [List.filter_cons, ih]

/-- The fuel `run` gives to `a+`, the length of the input plus one, is enough. -/
theorem iterPlus_fuel {f : List Char → List (List Char)} {P : List Char → Prop}
    (hf : ∀ w t, P w → t ∈ f (w ++ t)) (ws : List (List Char)) (t : List Char)
    (hne : ws ≠ []) (hws : ∀ x ∈ ws, P x) :
    t ∈ iterPlus f ((ws.flatten ++ t).length + 1) (ws.flatten ++ t) := by
  by_cases hall : ws.filter (fun x => !x.isEmpty) = []
  · -- every word is empty: one round on the empty word
    obtain ⟨w, ws2, rfl⟩ := List.exists_cons_of_ne_nil hne
    have hflat : (w :: ws2).flatten = [] := by
      rw [← flatten_filter_nonempty, hall]; rfl
    have hw : w = [] := by
      simp only [List.flatten_cons, List.append_eq_nil] at hflat
      exact hflat.1
    have h1 := hf w t (hws w (List.mem_cons_self _ _))
    rw [hflat]
    simp only [List.nil_append, iterPlus, List.mem_flatMap, List.mem_cons]
    refine ⟨t, ?_, .inl rfl⟩
    simpa [hw] using h1
  · have h := iterPlus_complete hf (ws.filter (fun x => !x.isEmpty))
      ((ws.flatten ++ t).length + 1) t hall ?_ ?_
    · rwa [flatten_filter_nonempty] at h
    · have := length_le_flatten (ws.filter (fun x => !x.isEmpty)) (by
        intro x hx
        simp only [List.mem_filter, Bool.not_eq_true', List.isEmpty_eq_false] at hx
        simpa using hx.2)
      rw [flatten_filter_nonempty] at this
      simp only [List.length_append]
      omega
    · intro x hx
      exact hws x (List.mem_of_mem_filter hx)

/-- Every word the expression denotes is matched by `run`, whatever follows it. -/
theorem Regex.run_complete (r : Regex) :
    ∀ w t, r.Matches w → t ∈ r.run (w ++ t) := by
  induction r with
  | cls p =>
    intro w t h
    obtain ⟨c, rfl, hc⟩ := h
    simp [Regex.run, hc]
  | lit c =>
    intro w t h
    simp only [Regex.Matches] at h
    subst h
    simp [Regex.run]
  | cat a b iha ihb =>
    intro w t h
    obtain ⟨u, v, rfl, hu, hv⟩ := h
    simp only [Regex.run, List.mem_flatMap]
    exact ⟨v ++ t, by simpa using iha u (v ++ t) hu, ihb v t hv⟩
  | opt a ih =>
    intro w t h
    simp only [Regex.run, List.mem_cons]
    rcases h with rfl | h
    · exact .inl rfl
    · exact .inr (ih w t h)
  | upTo n a ih =>
    intro w t h
    obtain ⟨ws, hlen, rfl, hws⟩ := h
    exact iterUpTo_complete ih ws n t hlen hws
  | plus a ih =>
    intro w t h
    obtain ⟨ws, hne, rfl, hws⟩ := h
    exact iterPlus_fuel ih ws t hne hws

/-- The matcher decides the denotation: `MatchString` is true exactly on the strings the
pattern denotes. -/
theorem MatchString_iff (re : Regex) (s : String) :
    re.MatchString s = true ↔ re.Matches s.toList := by
  constructor
  · exact MatchString_sound
  · intro h
    have := re.run_complete s.toList [] h
    simp only [Regex.MatchString, List.any_eq_true, List.isEmpty_iff]
    exact ⟨[], by simpa using this, rfl⟩

/-! ## The login lookup -/

theorem usernameRe_chars {s : String} (h : usernameRe.MatchString s = true) :
    ∀ c ∈ s.toList, isUsernameChar c = true := by
  obtain ⟨ws, -, hw, hws⟩ := MatchString_sound h
  rw [hw]
  intro c hc
  obtain ⟨x, hx, hcx⟩ := List.mem_flatten.mp hc
  obtain ⟨d, rfl, hd⟩ := hws x hx
  simp only [List.mem_singleton] at hcx
  rw [hcx]
  exact hd

theorem emailRe_at {s : String} (h : emailRe.MatchString s = true) : '@' ∈ s.toList := by
  obtain ⟨u1, v1, hw1, -, u2, v2, hw2, -, u3, v3, hw3, h3, -⟩ := MatchString_sound h
  simp only [Regex.Matches] at h3
  rw [hw1, hw2, hw3, h3]
  simp

theorem username_not_email (s : String) :
    ¬ (usernameRe.MatchString s = true ∧ emailRe.MatchString s = true) := by
  rintro ⟨hu, he⟩
  have := usernameRe_chars hu '@' (emailRe_at he)
  revert this
  decide

theorem LoginHandler_users (env : Env) (r : Request) (db : Store) :
    (LoginHandler env r db).2.users = db.users := by
  rcases LoginHandler_cases env r db with ⟨e, -⟩ | ⟨form, e⟩
  · rw [e]
  · rw [e]
    rcases loginCheck_cases env db (formValue form "email") (formValue form "password")
      with ⟨e2, -⟩ | ⟨user, -, -, e2⟩
    · rw [e2]
    · rw [e2]
      rcases loginCreateSession_cases env db user.id with
        ⟨e3, -⟩ | ⟨-, e3⟩ | ⟨token, db2, -, -, hins, e3⟩
      · rw [e3]
      · rw [e3]; rfl
      · rw [e3]
        obtain ⟨id, rfl, -, -⟩ := insertSession_ok hins
        rfl

theorem UsersValid_insert {db db1 : Store} {username email hash created : String} {res : Nat}
    (hv : UsersValid db.users) (hu : usernameRe.MatchString username = true)
    (he : emailRe.MatchString email = true)
    (h : db.insertUser username email hash created = .ok (db1, res)) :
    UsersValid db1.users := by
  obtain ⟨rfl, hnu, hne⟩ := insertUser_ok h
  refine ⟨?_, ?_, ?_, ?_⟩
  · intro u hmem
    rcases List.mem_append.mp hmem with hmem | hmem
    · exact hv.username_ok u hmem
    · simp only [List.mem_singleton] at hmem; rw [hmem]; exact hu
  · intro u hmem
    rcases List.mem_append.mp hmem with hmem | hmem
    · exact hv.email_ok u hmem
    · simp only [List.mem_singleton] at hmem; rw [hmem]; exact he
  · simp only [List.map_append, List.map_cons, List.map_nil]
    refine List.Nodup.append hv.username_unique (List.nodup_singleton _) ?_
    intro x hx hx2
    simp only [List.mem_singleton] at hx2
    obtain ⟨u, hu1, hu2⟩ := List.mem_map.mp hx
    exact hnu u hu1 (hu2.trans hx2)
  · simp only [List.map_append, List.map_cons, List.map_nil]
    refine List.Nodup.append hv.email_unique (List.nodup_singleton _) ?_
    intro x hx hx2
    simp only [List.mem_singleton] at hx2
    obtain ⟨u, hu1, hu2⟩ := List.mem_map.mp hx
    exact hne u hu1 (hu2.trans hx2)

theorem SignupHandler_users (env : Env) (r : Request) (db : Store)
    (hv : UsersValid db.users) : UsersValid (SignupHandler env r db).2.users := by
  rcases SignupHandler_cases env r db with ⟨e, -⟩ | ⟨form, e⟩
  · rw [e]; exact hv
  · rw [e]
    rcases signupCheck_cases env db (formValue form "username") (formValue form "email")
      (formValue form "password") with ⟨e2, -⟩ | ⟨hash, he, hu, -, -, -, e2⟩
    · rw [e2]; exact hv
    · rw [e2]
      rcases signupTx_cases env db (formValue form "username") (formValue form "email") hash
        with ⟨e3, -⟩ | ⟨token, userID, db1, db2, hU, -, -, hS, -, e3⟩
      · rw [e3]; exact hv
      · rw [e3]
        obtain ⟨id, hdb2, -, -⟩ := insertSession_ok hS
        rw [hdb2]
        show UsersValid db1.users
        exact UsersValid_insert hv hu he hU

theorem Reachable_users {db : Store} (h : Reachable db) : UsersValid db.users := by
  induction h with
  | empty => exact ⟨by simp [emptyStore], by simp [emptyStore], by simp [emptyStore],
      by simp [emptyStore]⟩
  | signup env r db _ ih => exact SignupHandler_users env r db ih
  | login env r db _ ih => rw [LoginHandler_users]; exact ih

theorem UsersValid_tail {u : User} {users : List User} (h : UsersValid (u :: users)) :
    UsersValid users :=
  ⟨fun v hv => h.username_ok v (List.mem_cons_of_mem _ hv),
    fun v hv => h.email_ok v (List.mem_cons_of_mem _ hv),
    (List.nodup_cons.mp h.username_unique).2, (List.nodup_cons.mp h.email_unique).2⟩

theorem lookup_at_most_one (users : List User) (hv : UsersValid users) (ident : String) :
    (users.filter (fun u => u.email = ident || u.username = ident)).length ≤ 1 := by
  induction users with
  | nil => simp
  | cons u rest ih =>
    have ih2 := ih (UsersValid_tail hv)
    by_cases hu : (decide (u.email = ident) || decide (u.username = ident)) = true
    · rw [List.filter_cons, if_pos hu]
      have hnone : rest.filter (fun u => u.email = ident || u.username = ident) = [] := by
        rw [List.filter_eq_nil_iff]
        intro v hvm hP
        simp only [Bool.or_eq_true, decide_eq_true_eq] at hu hP
        have hue := (List.nodup_cons.mp hv.email_unique).1
        have huu := (List.nodup_cons.mp hv.username_unique).1
        rcases hu with hu | hu <;> rcases hP with hP | hP
        · exact hue (List.mem_map.mpr ⟨v, hvm, hP.trans hu.symm⟩)
        · apply username_not_email ident
          constructor
          · rw [← hP]; exact hv.username_ok v (List.mem_cons_of_mem _ hvm)
          · rw [← hu]; exact hv.email_ok u (List.mem_cons_self _ _)
        · apply username_not_email ident
          constructor
          · rw [← hu]; exact hv.username_ok u (List.mem_cons_self _ _)
          · rw [← hP]; exact hv.email_ok v (List.mem_cons_of_mem _ hvm)
        · exact huu (List.mem_map.mpr ⟨v, hvm, hP.trans hu.symm⟩)
      simp [hnone]
    · rw [List.filter_cons, if_neg hu]
      exact ih2

theorem selectUser_of_match {db : Store} (hv : UsersValid db.users) {ident : String}
    {u : User} (hu : u ∈ db.users) (hm : u.email = ident ∨ u.username = ident) :
    db.selectUser ident = some u := by
  have hP : (decide (u.email = ident) || decide (u.username = ident)) = true := by
    simpa using hm
  unfold Store.selectUser
  cases hf : db.users.find? (fun u => u.email = ident || u.username = ident) with
  | none =>
    rw [List.find?_eq_none] at hf
    exact absurd hP (hf u hu)
  | some v =>
    have hv1 := List.mem_of_find?_eq_some hf
    have hv2 := List.find?_some hf
    have h1 : u ∈ db.users.filter (fun u => u.email = ident || u.username = ident) :=
      List.mem_filter.mpr ⟨hu, hP⟩
    have h2 : v ∈ db.users.filter (fun u => u.email = ident || u.username = ident) :=
      List.mem_filter.mpr ⟨hv1, hv2⟩
    have hlen := lookup_at_most_one db.users hv ident
    generalize db.users.filter (fun u => u.email = ident || u.username = ident) = l at h1 h2 hlen
    match l, h1, h2, hlen with
    | [a], h1, h2, _ =>
      simp only [List.mem_singleton] at h1 h2
      rw [h1, h2]
    | _ :: _ :: _, _, _, hlen => simp at hlen

/-- C10: the login lookup is unambiguous. No string passes signup both as a username and
as an email; every store the handlers produce from the empty one has usernames and emails
of the required form, pairwise distinct; and in such a store the query
`email = ? OR username = ?` matches at most one user row for every identifier, the lookup
returns the one account the identifier names, and the password is checked against the hash
of that account. -/
theorem login_lookup_unambiguous :
    (∀ s : String, ¬ (usernameRe.MatchString s = true ∧ emailRe.MatchString s = true)) ∧
    (∀ db : Store, Reachable db → UsersValid db.users) ∧
    (∀ db : Store, UsersValid db.users → ∀ ident : String,
      (db.users.filter (fun u => u.email = ident || u.username = ident)).length ≤ 1 ∧
      ∀ u ∈ db.users, (u.email = ident ∨ u.username = ident) →
        db.selectUser ident = some u ∧
        ∀ (env : Env) (password : String), ident ≠ "" → password ≠ "" →
          env.fails .loginSelect = false →
          loginCheck env db ident password =
            if env.bcryptCompare u.password_hash password = true
            then loginCreateSession env db u.id
            else (.template none "login.html" "Invalid email or password", db)) := by
  refine ⟨username_not_email, fun db h => Reachable_users h, fun db hv ident =>
    ⟨lookup_at_most_one db.users hv ident, fun u hu hm => ?_⟩⟩
  have hsel := selectUser_of_match hv hu hm
  refine ⟨hsel, fun env password hi hp hf => ?_⟩
  cases hc : env.bcryptCompare u.password_hash password with
  | true => simpa using loginCheck_verified hi hp hf hsel hc
  | false => simpa using loginCheck_wrong hi hp hf hsel hc

/-- Witness for C10: the store after the signup of alice, and the identifier `alice`. -/
theorem login_lookup_unambiguous_witness :
    Reachable (SignupHandler exampleEnv signupAlice emptyStore).2 ∧
    ((SignupHandler exampleEnv signupAlice emptyStore).2.users.filter
      (fun u => u.email = "alice" || u.username = "alice")).length ≤ 1 :=
  ⟨Reachable.signup exampleEnv signupAlice emptyStore Reachable.empty,
    (login_lookup_unambiguous.2.2 (SignupHandler exampleEnv signupAlice emptyStore).2
      (login_lookup_unambiguous.2.1 _
        (Reachable.signup exampleEnv signupAlice emptyStore Reachable.empty)) "alice").1⟩

/-! ## Unique tokens -/

theorem tokens_delete {db : Store} (userID : Nat)
    (h : (db.sessions.map (fun s => s.token)).Nodup) :
    ((db.deleteSessions userID).sessions.map (fun s => s.token)).Nodup :=
  List.Nodup.sublist (List.Sublist.map _ (List.filter_sublist _)) h

theorem tokens_insert {db db2 : Store} {token expires : String} {userID : Nat}
    (h : (db.sessions.map (fun s => s.token)).Nodup)
    (hins : db.insertSession token userID expires = .ok db2) :
    (db2.sessions.map (fun s => s.token)).Nodup := by
  obtain ⟨id, rfl, hfresh, -⟩ := insertSession_ok hins
  simp only [List.map_append, List.map_cons, List.map_nil]
  refine List.Nodup.append h (List.nodup_singleton _) ?_
  intro x hx hx2
  simp only [List.mem_singleton] at hx2
  obtain ⟨s, hs1, hs2⟩ := List.mem_map.mp hx
  exact hfresh s hs1 (hs2.trans hx2)

/-- The schema's `UNIQUE` on `sessions.token` holds in every store the handlers produce. -/
theorem Reachable_tokens {db : Store} (h : Reachable db) :
    (db.sessions.map (fun s => s.token)).Nodup := by
  induction h with
  | empty => simp [emptyStore]
  | signup env r db _ ih =>
    rcases SignupHandler_cases env r db with ⟨e, -⟩ | ⟨form, e⟩
    · rw [e]; exact ih
    · rw [e]
      rcases signupCheck_cases env db (formValue form "username") (formValue form "email")
        (formValue form "password") with ⟨e2, -⟩ | ⟨hash, -, -, -, -, -, e2⟩
      · rw [e2]; exact ih
      · rw [e2]
        rcases signupTx_cases env db (formValue form "username") (formValue form "email") hash
          with ⟨e3, -⟩ | ⟨token, userID, db1, db2, hU, -, -, hS, -, e3⟩
        · rw [e3]; exact ih
        · rw [e3]
          exact tokens_insert (by rw [insertUser_sessions hU]; exact ih) hS
  | login env r db _ ih =>
    rcases LoginHandler_cases env r db with ⟨e, -⟩ | ⟨form, e⟩
    · rw [e]; exact ih
    · rw [e]
      rcases loginCheck_cases env db (formValue form "email") (formValue form "password")
        with ⟨e2, -⟩ | ⟨user, -, -, e2⟩
      · rw [e2]; exact ih
      · rw [e2]
        rcases loginCreateSession_cases env db user.id with
          ⟨e3, -⟩ | ⟨-, e3⟩ | ⟨token, db2, -, -, hins, e3⟩
        · rw [e3]; exact ih
        · rw [e3]; exact tokens_delete user.id ih
        · rw [e3]; exact tokens_insert (tokens_delete user.id ih) hins

end Forum
